import Mathlib

/-!
Wiimote to HID mouse bridge: the event loop of `src/main.c`.

A shallow embedding of `main.c`: the two macros, the device state, the report,
the setup sequence of `main`, and one iteration of the `for (;;)` loop as a
function of the state and of what the environment returns in that iteration
(`poll`, `xwii_iface_dispatch`, `gettimeofday`, `send`).

* C `int` values are `Int`; results that C computes in `int` are wrapped to
  32 bits where they could leave the range.
* C `double` values are rationals; every floating operation is the exact result
  rounded to binary64 (round to nearest, ties to even), so the model follows
  the arithmetic of the program bit for bit on finite values.
* The libc macros `timersub` and `timercmp` are written out as in `sys/time.h`.
* The enumerators of `xwiimote.h` are parameters (`xwii_keys`).
* Output to `stdout` and `stderr` is left out; it does not influence control.
-/

namespace Wiimote

/-! ## Machine integers -/

/-- Smallest value of a C `int` (32 bits). -/
def INT_MIN : Int := -2147483648

/-- Largest value of a C `int` (32 bits). -/
def INT_MAX : Int := 2147483647

/-- The value is representable as a C `int`. -/
def in_int (x : Int) : Prop := INT_MIN ≤ x ∧ x ≤ INT_MAX

instance (x : Int) : Decidable (in_int x) :=
  inferInstanceAs (Decidable (INT_MIN ≤ x ∧ x ≤ INT_MAX))

/-- Wrap of an `int` result to 32 bits, as in twos-complement arithmetic. -/
def wrap_int (x : Int) : Int := (x + 2147483648) % 4294967296 - 2147483648

/-- Conversion of an `int` to `uint8_t`: reduction modulo 256. -/
def to_uint8 (x : Int) : Nat := (x % 256).toNat

/-- A byte read as a signed 8-bit twos-complement value. -/
def as_int8 (b : Nat) : Int := if b < 128 then (b : Int) else (b : Int) - 256

/-- Left shift `x << n` of a non-negative `int` that does not overflow. -/
def shl (x : Int) (n : Nat) : Int := x * 2 ^ n

/-! ## Binary64 arithmetic -/

/-- Nearest integer, ties to the even one. -/
def round_even (q : ℚ) : Int :=
  let f := Int.floor q
  let r := q - f
  if r < 1 / 2 then f else if 1 / 2 < r then f + 1 else if f % 2 = 0 then f else f + 1

/-- Rounding of an exact result to binary64: 53 significant bits, round to
nearest, ties to even; below `2 ^ (-1022)` the spacing stays `2 ^ (-1074)`.
Magnitudes of `2 ^ 1024` and more do not occur in this program (all operands
come from 32-bit and 64-bit integers and three small constants). -/
def rnd (q : ℚ) : ℚ :=
  if q = 0 then 0
  else
    let e := max (Int.log 2 |q|) (-1022)
    let ulp : ℚ := (2 : ℚ) ^ (e - 52)
    (round_even (q / ulp) : ℚ) * ulp

/-- Floating addition. -/
def fadd (a b : ℚ) : ℚ := rnd (a + b)

/-- Floating multiplication. -/
def fmul (a b : ℚ) : ℚ := rnd (a * b)

/-- Floating division. -/
def fdiv (a b : ℚ) : ℚ := rnd (a / b)

/-- Conversion of an integer (`int` or `long`) to `double`. -/
def i2d (n : Int) : ℚ := rnd (n : ℚ)

/-- Truncation toward zero. -/
def trunc (q : ℚ) : Int := if 0 ≤ q then Int.floor q else Int.ceil q

/-- Conversion of a `double` to `int`: truncation toward zero. A value outside
the range of `int` has no defined result in C; x86-64 yields `INT_MIN`. -/
def d2i (q : ℚ) : Int :=
  if in_int (trunc q) then trunc q else INT_MIN

/-- Conversion of a `double` to `long` (the type of `tv_usec`): truncation
toward zero. -/
def d2l (q : ℚ) : Int := trunc q

/-! ## Macros of `main.c` -/

/-- Macro `#define DEADZONE 20`. -/
def DEADZONE : Int := 20

/-- Macro `#define WITHIN(value, min, max)
  (value < min ? min : (value > max) ? max : value)` -/
def WITHIN (value min max : Int) : Int :=
  if value < min then min else if value > max then max else value

/-- Macro `#define CORRECT_DEADZONE(value) (value < DEADZONE && value > -DEADZONE ? 0
  : (value < 0 ? value + DEADZONE : value - DEADZONE))`, on an `int32_t`
operand; the sum and the difference are `int` results. -/
def CORRECT_DEADZONE (value : Int) : Int :=
  if value < DEADZONE ∧ value > -DEADZONE then 0
  else if value < 0 then wrap_int (value + DEADZONE) else wrap_int (value - DEADZONE)

/-! ## Constants of `main` -/

/-- Declaration `double sensitivity = 5e-2;` the literal is rounded to binary64. -/
def sensitivity : ℚ := rnd (5 / 100)

/-- Declaration `double r_factor = 3;` -/
def r_factor : ℚ := 3

/-- Declaration `double nunchuck_correction = 3e-1;` the literal is rounded to
binary64. -/
def nunchuck_correction : ℚ := rnd (3 / 10)

/-! ## Data model -/

/-- Key enumerators of `xwiimote.h` that `main.c` uses. The header belongs to
the xwiimote library and is not part of the repository, so the values are
parameters of the model. -/
structure xwii_keys where
  XWII_KEY_A : Nat
  XWII_KEY_B : Nat
  XWII_KEY_TR : Nat
  XWII_KEY_NUM : Nat

/-- The enumerators in the order of the library header, used for concrete
evaluations. -/
def xwiimote_keys : xwii_keys :=
  { XWII_KEY_A := 4, XWII_KEY_B := 5, XWII_KEY_TR := 14, XWII_KEY_NUM := 28 }

/-- Type `struct dev_state { int8_t btn[XWII_KEY_NUM]; int rel[4]; };` the arrays
are maps from index to element. -/
structure dev_state where
  btn : Nat → Int
  rel : Nat → Int

/-- State after `memset(&state, 0, sizeof(state))`. -/
def dev_state.zero : dev_state := { btn := fun _ => 0, rel := fun _ => 0 }

/-- Type `struct report { uint8_t data[5]; };` -/
structure report where
  d0 : Nat
  d1 : Nat
  d2 : Nat
  d3 : Nat
  d4 : Nat
deriving DecidableEq

/-- The `sizeof(report)` bytes handed to `send`. -/
def report.bytes (r : report) : List Nat := [r.d0, r.d1, r.d2, r.d3, r.d4]

/-- Report after `memset(&report, 0, sizeof(report)); report.data[0] = 0xA1;
report.data[1] = 2;` -/
def report.init : report := { d0 := 0xA1, d1 := 2, d2 := 0, d3 := 0, d4 := 0 }

/-- Type `struct timeval` of libc. -/
structure timeval where
  tv_sec : Int
  tv_usec : Int
deriving DecidableEq

/-- What `gettimeofday` returns: microseconds in `[0, 1000000)`. -/
def timeval.wf (t : timeval) : Prop := 0 ≤ t.tv_usec ∧ t.tv_usec < 1000000

instance (t : timeval) : Decidable t.wf :=
  inferInstanceAs (Decidable (0 ≤ t.tv_usec ∧ t.tv_usec < 1000000))

/-- The libc macro `timersub(a, b, result)`. -/
def timersub (a b : timeval) : timeval :=
  let sec := a.tv_sec - b.tv_sec
  let usec := a.tv_usec - b.tv_usec
  if usec < 0 then { tv_sec := sec - 1, tv_usec := usec + 1000000 }
  else { tv_sec := sec, tv_usec := usec }

/-- The libc macro `timercmp(a, b, >)`: seconds decide unless they are equal. -/
def timercmp_gt (a b : timeval) : Bool :=
  if a.tv_sec = b.tv_sec then decide (a.tv_usec > b.tv_usec)
  else decide (a.tv_sec > b.tv_sec)

/-- Declaration
`struct timeval delay_val = { .tv_sec = 0, .tv_usec = delay_millis * 1e3 };` -/
def delay_val (delay_millis : Int) : timeval :=
  { tv_sec := 0, tv_usec := d2l (fmul (i2d delay_millis) 1000) }

/-- Microseconds from timestamp `b` to timestamp `a`, as an exact integer. -/
def elapsed_micros (a b : timeval) : Int :=
  (a.tv_sec - b.tv_sec) * 1000000 + (a.tv_usec - b.tv_usec)

/-! ## Events and the environment of one iteration -/

/-- The event read by `xwii_iface_dispatch`, by `ev.type`; `other` stands for
every type without a `case` in the `switch`. -/
inductive xwii_event where
  | GONE
  | WATCH
  | KEY (code : Nat) (state : Nat)
  | CLASSIC_CONTROLLER_KEY (code : Nat) (state : Nat)
  | CLASSIC_CONTROLLER_MOVE (x0 y0 x1 y1 : Int)
  | NUNCHUK_MOVE (x0 y0 : Int)
  | other
deriving DecidableEq

/-- Result of `poll(&pfd, 1, delay_millis)`: not `-1`; `-1` with
`errno == EINTR`; `-1` with another `errno`. -/
inductive poll_result where
  | ready
  | eintr
  | failed
deriving DecidableEq

/-- Result of `xwii_iface_dispatch`: an event, `-EAGAIN`, another negative
value. -/
inductive dispatch_result where
  | event (ev : xwii_event)
  | eagain
  | failed
deriving DecidableEq

/-- What the environment returns during one iteration of the loop. A field
is consulted only when the iteration reaches the call. -/
structure iter_input where
  poll : poll_result
  dispatch : dispatch_result
  gettimeofday : Option timeval
  send_ok : Bool
deriving DecidableEq

/-- The variables of `main` that live across iterations. `ret` is `none`
until the first assignment (the variable is declared without initialiser). -/
structure loop_state where
  wii_state : dev_state
  mouse_state : dev_state
  last_report : timeval
  prev : timeval
  report : report
  ret : Option Int

/-- How an iteration ends: back to the top of the loop, or out of the loop
with the value that `main` returns (`none`: `ret` was never assigned). -/
inductive control where
  | loop (s : loop_state)
  | leave (ret : Option Int)

/-- Outcome of one iteration: the datagram handed to `send`, if `send` was
called, and where control goes. -/
structure iter_result where
  send_call : Option (List Nat)
  next : control

/-- Outcome of the `switch (ev.type)`. -/
inductive event_outcome where
  | proceed (wii_state : dev_state) (send_report : Bool)
  | gone

/-! ## One iteration of the loop -/

/-- The `switch (ev.type)` of the loop body. `WATCH` calls `open_iface` and
drops its result; an event type without a `case` changes nothing. -/
def handle_event (wii : dev_state) : xwii_event → event_outcome
  | xwii_event.GONE => event_outcome.gone
  | xwii_event.WATCH => event_outcome.proceed wii false
  | xwii_event.KEY code state =>
      event_outcome.proceed
        { btn := Function.update wii.btn code (if state ≠ 0 then 1 else 0), rel := wii.rel }
        (decide (state ≠ 2))
  | xwii_event.CLASSIC_CONTROLLER_KEY code state =>
      event_outcome.proceed
        { btn := Function.update wii.btn code (if state ≠ 0 then 1 else 0), rel := wii.rel }
        (decide (state ≠ 2))
  | xwii_event.CLASSIC_CONTROLLER_MOVE x0 y0 x1 y1 =>
      event_outcome.proceed
        { btn := wii.btn,
          rel :=
            Function.update (Function.update (Function.update (Function.update wii.rel
              0 (CORRECT_DEADZONE x0)) 1 (CORRECT_DEADZONE y0))
              2 (CORRECT_DEADZONE x1)) 3 (CORRECT_DEADZONE y1) }
        false
  | xwii_event.NUNCHUK_MOVE x0 y0 =>
      event_outcome.proceed
        { btn := wii.btn,
          rel :=
            (Function.update (Function.update wii.rel
              0 (d2i (fmul (i2d (CORRECT_DEADZONE x0)) nunchuck_correction)))
              1 (d2i (fmul (i2d (CORRECT_DEADZONE y0)) nunchuck_correction))) }
        false
  | xwii_event.other => event_outcome.proceed wii false

/-- Statement `diff_micro = diff.tv_sec * 1e6 + diff.tv_usec;` -/
def diff_micro_of (diff : timeval) : Int :=
  d2i (fadd (fmul (i2d diff.tv_sec) 1000000) (i2d diff.tv_usec))

/-- Statement `acc += (a + r_factor * b) * diff_micro;` on an `int` accumulator:
the right-hand side is a `double`, the sum is converted back to `int`. -/
def integrate (acc a b diff_micro : Int) : Int :=
  d2i (fadd (i2d acc) (fmul (fadd (i2d a) (fmul r_factor (i2d b))) (i2d diff_micro)))

/-- Statement `int rel_x = mouse_state.rel[0] / 1e3 * sensitivity;` -/
def rel_x_of (acc : Int) : Int :=
  d2i (fmul (fdiv (i2d acc) 1000) sensitivity)

/-- Statement `int rel_y = -mouse_state.rel[1] / 1e3 * sensitivity;` the negation
is an `int` operation. -/
def rel_y_of (acc : Int) : Int :=
  d2i (fmul (fdiv (i2d (wrap_int (-acc))) 1000) sensitivity)

/-- Operator `a || b` on integers. -/
def logical_or (a b : Int) : Int := if a ≠ 0 ∨ b ≠ 0 then 1 else 0

/-- Statement `report.data[2] = mouse_state.btn[0] | (mouse_state.btn[1] << 1)
  | (mouse_state.btn[2] << 2);` -/
def button_byte (btn : Nat → Int) : Nat :=
  to_uint8 (Int.lor (Int.lor (btn 0) (shl (btn 1) 1)) (shl (btn 2) 2))

/-- Statements
`mouse_state.btn[0] = wii_state.btn[XWII_KEY_A] || wii_state.btn[XWII_KEY_TR];
mouse_state.btn[1] = wii_state.btn[XWII_KEY_B]; mouse_state.btn[2] = 0;` -/
def copy_buttons (K : xwii_keys) (old : Nat → Int) (wii : dev_state) : Nat → Int :=
  Function.update (Function.update (Function.update old
    0 (logical_or (wii.btn K.XWII_KEY_A) (wii.btn K.XWII_KEY_TR)))
    1 (wii.btn K.XWII_KEY_B)) 2 0

/-- Statement `report.data[3] = WITHIN(rel_x, -128, 127);` and the same for
`data[4]`. -/
def motion_byte (d : Int) : Nat := to_uint8 (WITHIN d (-128) 127)

/-- The loop body from the label `skip_event` to the end: time bookkeeping,
integration, button copy, and the report when `send_report` is set. -/
def finish_iteration (K : xwii_keys) (delay_millis : Int) (s : loop_state)
    (ret : Option Int) (wii : dev_state) (send_report : Bool) (inp : iter_input) :
    iter_result :=
  match inp.gettimeofday with
  | none => { send_call := none, next := control.leave (some 0x82) }
  | some now =>
    let send_report :=
      if timercmp_gt (timersub now s.last_report) (delay_val delay_millis) then true
      else send_report
    let diff_micro := diff_micro_of (timersub now s.prev)
    let rel0 := integrate (s.mouse_state.rel 0) (wii.rel 0) (wii.rel 2) diff_micro
    let rel1 := integrate (s.mouse_state.rel 1) (wii.rel 1) (wii.rel 3) diff_micro
    let btn := copy_buttons K s.mouse_state.btn wii
    let rel := Function.update (Function.update s.mouse_state.rel 0 rel0) 1 rel1
    if send_report = false then
      { send_call := none,
        next := control.loop
          { wii_state := wii, mouse_state := { btn := btn, rel := rel },
            last_report := s.last_report, prev := now, report := s.report, ret := ret } }
    else
      let rel_x := rel_x_of rel0
      let rel_y := rel_y_of rel1
      let rep : report :=
        { d0 := s.report.d0, d1 := s.report.d1,
          d2 := button_byte btn, d3 := motion_byte rel_x, d4 := motion_byte rel_y }
      if inp.send_ok = false then
        { send_call := some rep.bytes, next := control.leave (some 0x83) }
      else
        { send_call := some rep.bytes,
          next := control.loop
            { wii_state := wii,
              mouse_state :=
                { btn := btn, rel := Function.update (Function.update rel 0 0) 1 0 },
              last_report := now, prev := now, report := rep, ret := ret } }

/-- One iteration of `for (;;)`. After a `poll` failure other than `EINTR`
the body assigns `ret = 0x80` and goes on; after a dispatch failure the
statement `0x31;` assigns nothing and control goes to `err_dev`. -/
def loop_iteration (K : xwii_keys) (delay_millis : Int) (s : loop_state)
    (inp : iter_input) : iter_result :=
  match inp.poll with
  | poll_result.eintr => { send_call := none, next := control.leave (some 0) }
  | p =>
    let ret : Option Int := if p = poll_result.failed then some 0x80 else s.ret
    match inp.dispatch with
    | dispatch_result.failed => { send_call := none, next := control.leave ret }
    | dispatch_result.eagain => finish_iteration K delay_millis s ret s.wii_state false inp
    | dispatch_result.event ev =>
      match handle_event s.wii_state ev with
      | event_outcome.gone => { send_call := none, next := control.leave (some 0) }
      | event_outcome.proceed wii send_report =>
          finish_iteration K delay_millis s ret wii send_report inp

/-- The raw device state after the dispatch step of an iteration. -/
def wii_after_dispatch (s : loop_state) (inp : iter_input) : dev_state :=
  match inp.dispatch with
  | dispatch_result.event ev =>
    match handle_event s.wii_state ev with
    | event_outcome.proceed wii _ => wii
    | event_outcome.gone => s.wii_state
  | _ => s.wii_state

/-- The state on entry to the loop: both device states zeroed, both timers
set to the time read at startup. -/
def loop_state.init (now : timeval) : loop_state :=
  { wii_state := dev_state.zero, mouse_state := dev_state.zero,
    last_report := now, prev := now, report := report.init, ret := none }

/-! ## Runs of the loop -/

/-- What a run of the loop shows from outside: the datagrams handed to `send`,
in order, and the value `main` returns if the loop was left (`none` while the
loop is still running after the last input; `some none` when it was left with
`ret` never assigned). -/
structure run_result where
  sends : List (List Nat)
  exit : Option (Option Int)

/-- The loop on a finite sequence of environment inputs, one per iteration. -/
def run_loop (K : xwii_keys) (delay_millis : Int) :
    loop_state → List iter_input → run_result
  | _, [] => { sends := [], exit := none }
  | s, inp :: rest =>
    match (loop_iteration K delay_millis s inp).next with
    | control.leave ret =>
        { sends := (loop_iteration K delay_millis s inp).send_call.toList,
          exit := some ret }
    | control.loop s' =>
        { sends := (loop_iteration K delay_millis s inp).send_call.toList
            ++ (run_loop K delay_millis s' rest).sends,
          exit := (run_loop K delay_millis s' rest).exit }

/-- The iterations a run executes, oldest first: each with the state at its
start and its input. The list ends with the iteration that leaves the loop. -/
def iterations (K : xwii_keys) (delay_millis : Int) :
    loop_state → List iter_input → List (loop_state × iter_input)
  | _, [] => []
  | s, inp :: rest =>
    match (loop_iteration K delay_millis s inp).next with
    | control.leave _ => [(s, inp)]
    | control.loop s' => (s, inp) :: iterations K delay_millis s' rest

/-- The state after the last input, when every iteration went back to the top
of the loop. -/
def final_state (K : xwii_keys) (delay_millis : Int) :
    loop_state → List iter_input → Option loop_state
  | s, [] => some s
  | s, inp :: rest =>
    match (loop_iteration K delay_millis s inp).next with
    | control.leave _ => none
    | control.loop s' => final_state K delay_millis s' rest

/-- The states the loop can be in at the top of an iteration. -/
inductive reachable (K : xwii_keys) (delay_millis : Int) : loop_state → Prop where
  | start (now : timeval) : reachable K delay_millis (loop_state.init now)
  | step (s s' : loop_state) (inp : iter_input) :
      reachable K delay_millis s →
      (loop_iteration K delay_millis s inp).next = control.loop s' →
      reachable K delay_millis s'

/-! ## Setup in `main` -/

/-- Function `open_wiimote`: the return value, from whether `xwii_monitor_new` and
`xwii_monitor_poll` return non-null and from the result of `xwii_iface_new`. -/
def open_wiimote (monitor_new_ok monitor_poll_ok : Bool) (iface_new_res : Int) : Int :=
  if monitor_new_ok = false then -0x20
  else if monitor_poll_ok = false then -0x21
  else if iface_new_res < 0 then -0x22
  else 0

/-- Function `open_iface`: the return value, from the result of `xwii_iface_open`. -/
def open_iface (iface_open_res : Int) : Int :=
  if iface_open_res < 0 then 0x25 else 0

/-- What the environment returns during the setup part of `main`. -/
structure setup_env where
  argc : Int
  atoi_argv2 : Int
  socket_ok : Bool
  connect_ok : Bool
  monitor_new_ok : Bool
  monitor_poll_ok : Bool
  iface_new_res : Int
  iface_open_res : Int
  iface_watch_res : Int
  gettimeofday : Option timeval

/-- Outcome of the setup part of `main`: `main` returns `ret`, or control
reaches `for (;;)` with the given interval and state. -/
inductive setup_result where
  | exit (ret : Int)
  | enter_loop (delay_millis : Int) (s : loop_state)

/-- The statements of `main` before the loop. -/
def main_setup (env : setup_env) : setup_result :=
  if env.argc < 2 then setup_result.exit 0x01
  else
    let delay_millis : Int := if env.argc ≥ 3 then env.atoi_argv2 else 30
    if env.socket_ok = false then setup_result.exit 0x10
    else if env.connect_ok = false then setup_result.exit 0x11
    else
      let res := open_wiimote env.monitor_new_ok env.monitor_poll_ok env.iface_new_res
      if res < 0 then setup_result.exit (-res)
      else
        let res := open_iface env.iface_open_res
        if res < 0 then setup_result.exit (-res)
        else if env.iface_watch_res < 0 then setup_result.exit 0x24
        else
          match env.gettimeofday with
          | none => setup_result.exit 0x32
          | some now => setup_result.enter_loop delay_millis (loop_state.init now)

/-- The whole of `main`: the setup part, then the loop on the inputs of its
iterations. -/
def main (K : xwii_keys) (env : setup_env) (inputs : List iter_input) : run_result :=
  match main_setup env with
  | setup_result.exit ret => { sends := [], exit := some (some ret) }
  | setup_result.enter_loop delay_millis s => run_loop K delay_millis s inputs


/-! ## Reference model of the motion integration -/

/-- One completed iteration as the integration property sees it: the four axes
in effect after the event dispatch, the exact microseconds since the previous
iteration, and whether the iteration sent a report. -/
structure frame where
  axis0 : Int
  axis1 : Int
  axis2 : Int
  axis3 : Int
  elapsed : Int
  reported : Bool
deriving DecidableEq

/-- Reference in the words of the spec: the exact sums of
`(axis0 + 3 * axis2) * elapsed` and `(axis1 + 3 * axis3) * elapsed` over the
frames since the most recent report, newest frame first; `(0, 0)` when the
newest frame sent a report. -/
def motion_since_report : List frame → Int × Int
  | [] => (0, 0)
  | f :: older =>
    if f.reported = true then (0, 0)
    else ((motion_since_report older).1 + (f.axis0 + 3 * f.axis2) * f.elapsed,
      (motion_since_report older).2 + (f.axis1 + 3 * f.axis3) * f.elapsed)

/-- The precondition of the integration property: every partial sum fits in a
signed 32-bit `int`, the sum reached before a report resets it included. -/
def partial_sums_fit : List frame → Prop
  | [] => True
  | f :: older =>
    in_int ((motion_since_report older).1 + (f.axis0 + 3 * f.axis2) * f.elapsed) ∧
    in_int ((motion_since_report older).2 + (f.axis1 + 3 * f.axis3) * f.elapsed) ∧
    partial_sums_fit older

/-- The clock behaves: every elapsed time fits in an `int` (the type of
`diff_micro`), or the clock never runs backwards between two iterations. -/
def clock_fit (fs : List frame) : Prop :=
  (∀ f ∈ fs, in_int f.elapsed) ∨ (∀ f ∈ fs, 0 ≤ f.elapsed)

/-- The frame of the iteration that starts in state `s` and gets `inp`. -/
def frame_of (K : xwii_keys) (delay_millis : Int) (s : loop_state) (inp : iter_input) :
    frame :=
  { axis0 := (wii_after_dispatch s inp).rel 0,
    axis1 := (wii_after_dispatch s inp).rel 1,
    axis2 := (wii_after_dispatch s inp).rel 2,
    axis3 := (wii_after_dispatch s inp).rel 3,
    elapsed :=
      match inp.gettimeofday with
      | some now => elapsed_micros now s.prev
      | none => 0,
    reported := (loop_iteration K delay_millis s inp).send_call.isSome }

/-- The frames of the completed iterations of a run, newest first, put in
front of the frames `hist` of earlier iterations. -/
def frames_from (K : xwii_keys) (delay_millis : Int) :
    loop_state → List iter_input → List frame → List frame
  | _, [], hist => hist
  | s, inp :: rest, hist =>
    match (loop_iteration K delay_millis s inp).next with
    | control.leave _ => hist
    | control.loop s' =>
        frames_from K delay_millis s' rest (frame_of K delay_millis s inp :: hist)

/-! ## Invariants of the loop -/

/-- Invariant of the loop: the stored buttons are 0 or 1 and the report keeps
its two header bytes. -/
def loop_inv (s : loop_state) : Prop :=
  (∀ k, s.wii_state.btn k = 0 ∨ s.wii_state.btn k = 1) ∧
    s.report.d0 = 0xA1 ∧ s.report.d1 = 2

/-- A state in which nothing was ever dispatched: zero axes, no button stored,
zero accumulated motion, the report as initialised. -/
def quiet_state (s : loop_state) : Prop :=
  (∀ i, s.wii_state.rel i = 0) ∧ (∀ k, s.wii_state.btn k = 0) ∧
    s.mouse_state.rel 0 = 0 ∧ s.mouse_state.rel 1 = 0 ∧
    s.report = report.init ∧ s.last_report.wf

/-- Invariant of the timers under a clock that never runs backwards: the
previous iteration is not earlier than the last report. -/
def clock_inv (s : loop_state) : Prop :=
  s.last_report.wf ∧ 0 ≤ elapsed_micros s.prev s.last_report

/-- Invariant of the integration: the accumulated motion is the reference sum
over the frames so far, and the stored values are `int` values. -/
def motion_inv (s : loop_state) (hist : List frame) : Prop :=
  s.mouse_state.rel 0 = (motion_since_report hist).1 ∧
    s.mouse_state.rel 1 = (motion_since_report hist).2 ∧
    in_int (s.mouse_state.rel 0) ∧ in_int (s.mouse_state.rel 1) ∧
    (∀ i, in_int (s.wii_state.rel i)) ∧ s.prev.wf

/-! ## Lemmas -/

theorem round_even_intCast (k : Int) : round_even (k : ℚ) = k := by
  simp [round_even]

theorem round_even_of_near (q : ℚ) (k : Int) (h : |q - k| < 1 / 2) : round_even q = k := by
  rw [abs_lt] at h
  obtain ⟨h1, h2⟩ := h
  unfold round_even
  by_cases hk : (k : ℚ) ≤ q
  · have hf : Int.floor q = k := by
      rw [Int.floor_eq_iff]
      constructor
      · exact hk
      · linarith
    simp only [hf]
    rw [if_pos (by linarith)]
  · push_neg at hk
    have hf : Int.floor q = k - 1 := by
      rw [Int.floor_eq_iff]
      push_cast
      constructor <;> linarith
    simp only [hf]
    push_cast
    rw [if_neg (by linarith), if_pos (by linarith)]
    ring

theorem rnd_zero : rnd 0 = 0 := by
  simp [rnd]

theorem rnd_of_bounds (q : ℚ) (e k : Int) (he : -1022 ≤ e)
    (h1 : (2 : ℚ) ^ e ≤ |q|) (h2 : |q| < (2 : ℚ) ^ (e + 1))
    (hk : |q / (2 : ℚ) ^ (e - 52) - k| < 1 / 2) :
    rnd q = (k : ℚ) * (2 : ℚ) ^ (e - 52) := by
  have hpos : 0 < |q| := lt_of_lt_of_le (by positivity) h1
  have hq : q ≠ 0 := abs_pos.mp hpos
  have hlog : Int.log 2 |q| = e := by
    apply le_antisymm
    · have := (Int.lt_zpow_iff_log_lt (R := ℚ) (b := 2) (by norm_num) hpos).mp
        (by exact_mod_cast h2)
      omega
    · exact (Int.zpow_le_iff_le_log (R := ℚ) (b := 2) (by norm_num) hpos).mp
        (by exact_mod_cast h1)
  unfold rnd
  rw [if_neg hq]
  simp only [hlog, max_eq_left he]
  rw [round_even_of_near _ k hk]

theorem rnd_intCast (n : Int) (h : |n| < 2 ^ 53) : rnd (n : ℚ) = n := by
  by_cases hn : n = 0
  · subst hn; simp [rnd]
  have hq : (n : ℚ) ≠ 0 := by exact_mod_cast hn
  have hpos : 0 < |(n : ℚ)| := abs_pos.mpr hq
  have h1 : (1 : ℚ) ≤ |(n : ℚ)| := by
    have : (1 : Int) ≤ |n| := Int.one_le_abs hn
    exact_mod_cast this
  have hlo : 0 ≤ Int.log 2 |(n : ℚ)| := by
    apply (Int.zpow_le_iff_le_log (R := ℚ) (b := 2) (by norm_num) hpos).mp
    simpa using h1
  have hhi : Int.log 2 |(n : ℚ)| < 53 := by
    apply (Int.lt_zpow_iff_log_lt (R := ℚ) (b := 2) (by norm_num) hpos).mp
    have : ((|n| : Int) : ℚ) < ((2 ^ 53 : Int) : ℚ) := by exact_mod_cast h
    push_cast at this
    exact_mod_cast this
  obtain ⟨m, hm⟩ : ∃ m : ℕ, 52 - Int.log 2 |(n : ℚ)| = m :=
    ⟨(52 - Int.log 2 |(n : ℚ)|).toNat, (Int.toNat_of_nonneg (by omega)).symm⟩
  have he : Int.log 2 |(n : ℚ)| - 52 = -(m : Int) := by omega
  unfold rnd
  rw [if_neg hq]
  simp only [max_eq_left (show (-1022 : Int) ≤ Int.log 2 |(n : ℚ)| by omega), he]
  have hdiv : (n : ℚ) / (2 : ℚ) ^ (-(m : Int)) = ((n * 2 ^ m : Int) : ℚ) := by
    rw [zpow_neg, zpow_natCast]
    push_cast
    field_simp
  rw [hdiv, round_even_intCast]
  rw [zpow_neg, zpow_natCast]
  push_cast
  field_simp

theorem rnd_of_int (q : ℚ) (n : Int) (hq : q = (n : ℚ)) (lo : -9007199254740992 < n)
    (hi : n < 9007199254740992) : rnd q = (n : ℚ) := by
  subst hq
  exact rnd_intCast n (abs_lt.mpr ⟨by norm_num; omega, by norm_num; omega⟩)

theorem i2d_exact (n : Int) (lo : -9007199254740992 < n) (hi : n < 9007199254740992) :
    i2d n = (n : ℚ) :=
  rnd_of_int _ n rfl lo hi

theorem trunc_intCast (n : Int) : trunc (n : ℚ) = n := by
  unfold trunc
  split <;> simp

theorem d2i_intCast (n : Int) (h : in_int n) : d2i (n : ℚ) = n := by
  unfold d2i
  rw [trunc_intCast, if_pos h]

theorem d2i_in_int (q : ℚ) : in_int (d2i q) := by
  unfold d2i
  split
  · assumption
  · simp [in_int, INT_MIN, INT_MAX]

theorem integrate_exact (acc a b dm : Int) (hacc : in_int acc) (ha : in_int a)
    (hb : in_int b) (hdm : in_int dm) (hsum : in_int (acc + (a + 3 * b) * dm)) :
    integrate acc a b dm = acc + (a + 3 * b) * dm := by
  simp only [in_int, INT_MIN, INT_MAX] at hacc ha hb hdm hsum
  generalize hp : (a + 3 * b) * dm = p at hsum
  unfold integrate fadd fmul r_factor
  rw [i2d_exact acc (by omega) (by omega), i2d_exact a (by omega) (by omega),
    i2d_exact b (by omega) (by omega), i2d_exact dm (by omega) (by omega)]
  rw [rnd_of_int ((3 : ℚ) * (b : ℚ)) (3 * b) (by push_cast; ring) (by omega) (by omega)]
  rw [rnd_of_int ((a : ℚ) + ((3 * b : Int) : ℚ)) (a + 3 * b) (by push_cast; ring)
    (by omega) (by omega)]
  rw [rnd_of_int (((a + 3 * b : Int) : ℚ) * (dm : ℚ)) p (by rw [← hp]; push_cast; ring)
    (by omega) (by omega)]
  rw [rnd_of_int ((acc : ℚ) + (p : ℚ)) (acc + p) (by push_cast; ring) (by omega) (by omega)]
  exact d2i_intCast _ (by simp only [in_int, INT_MIN, INT_MAX]; omega)

theorem timersub_eq (a b : timeval) (ha : a.wf) (hb : b.wf) :
    (timersub a b).wf ∧
      (timersub a b).tv_sec * 1000000 + (timersub a b).tv_usec = elapsed_micros a b := by
  simp only [timeval.wf] at ha hb
  unfold timersub elapsed_micros timeval.wf
  dsimp only
  split_ifs with h <;> dsimp only <;> omega

theorem diff_micro_exact (a b : timeval) (ha : a.wf) (hb : b.wf)
    (hfit : in_int (elapsed_micros a b)) :
    diff_micro_of (timersub a b) = elapsed_micros a b := by
  obtain ⟨hwf, heq⟩ := timersub_eq a b ha hb
  simp only [timeval.wf] at hwf
  simp only [in_int, INT_MIN, INT_MAX] at hfit
  rw [← heq] at hfit ⊢
  unfold diff_micro_of fadd fmul
  generalize (timersub a b).tv_sec = sec at *
  generalize (timersub a b).tv_usec = usec at *
  rw [i2d_exact sec (by omega) (by omega), i2d_exact usec (by omega) (by omega)]
  rw [rnd_of_int ((sec : ℚ) * 1000000) (sec * 1000000) (by push_cast; ring)
    (by omega) (by omega)]
  rw [rnd_of_int (((sec * 1000000 : Int) : ℚ) + (usec : ℚ)) (sec * 1000000 + usec)
    (by push_cast; ring) (by omega) (by omega)]
  exact d2i_intCast _ (by simp only [in_int, INT_MIN, INT_MAX]; omega)

theorem delay_val_exact (d : Int) (h : in_int d) :
    delay_val d = { tv_sec := 0, tv_usec := d * 1000 } := by
  simp only [in_int, INT_MIN, INT_MAX] at h
  unfold delay_val d2l fmul
  rw [i2d_exact d (by omega) (by omega)]
  rw [rnd_of_int ((d : ℚ) * 1000) (d * 1000) (by push_cast; ring) (by omega) (by omega)]
  rw [trunc_intCast]

theorem loop_iteration_eq (K : xwii_keys) (d : Int) (s : loop_state) (inp : iter_input) :
    (∃ ret, loop_iteration K d s inp = { send_call := none, next := control.leave ret }) ∨
    (inp.poll ≠ poll_result.eintr ∧ ∃ ret flag, loop_iteration K d s inp =
        finish_iteration K d s ret (wii_after_dispatch s inp) flag inp) := by
  unfold loop_iteration wii_after_dispatch
  cases hp : inp.poll <;> cases hd : inp.dispatch <;> simp only
  all_goals first
    | exact Or.inl ⟨_, rfl⟩
    | exact Or.inr ⟨by simp, _, _, rfl⟩
    | (rename_i ev
       cases he : handle_event s.wii_state ev <;> simp only
       · exact Or.inr ⟨by simp, _, _, rfl⟩
       · exact Or.inl ⟨_, rfl⟩)

theorem finish_iteration_send (K : xwii_keys) (d : Int) (s : loop_state) (ret : Option Int)
    (wii : dev_state) (flag : Bool) (inp : iter_input) (r : List Nat)
    (h : (finish_iteration K d s ret wii flag inp).send_call = some r) :
    ∃ now, inp.gettimeofday = some now ∧
      r = [s.report.d0, s.report.d1, button_byte (copy_buttons K s.mouse_state.btn wii),
        motion_byte (rel_x_of (integrate (s.mouse_state.rel 0) (wii.rel 0) (wii.rel 2)
          (diff_micro_of (timersub now s.prev)))),
        motion_byte (rel_y_of (integrate (s.mouse_state.rel 1) (wii.rel 1) (wii.rel 3)
          (diff_micro_of (timersub now s.prev))))] := by
  unfold finish_iteration at h
  cases hg : inp.gettimeofday with
  | none => simp [hg] at h
  | some now =>
    refine ⟨now, rfl, ?_⟩
    simp only [hg] at h
    split_ifs at h <;> simp_all [report.bytes, copy_buttons]

theorem finish_iteration_loop (K : xwii_keys) (d : Int) (s : loop_state) (ret : Option Int)
    (wii : dev_state) (flag : Bool) (inp : iter_input) (s' : loop_state)
    (h : (finish_iteration K d s ret wii flag inp).next = control.loop s') :
    ∃ now, inp.gettimeofday = some now ∧ s'.wii_state = wii ∧ s'.prev = now ∧
      s'.report.d0 = s.report.d0 ∧ s'.report.d1 = s.report.d1 ∧
      (((finish_iteration K d s ret wii flag inp).send_call = none ∧
          s'.last_report = s.last_report ∧ s'.report = s.report ∧
          s'.mouse_state.rel 0 = integrate (s.mouse_state.rel 0) (wii.rel 0) (wii.rel 2)
            (diff_micro_of (timersub now s.prev)) ∧
          s'.mouse_state.rel 1 = integrate (s.mouse_state.rel 1) (wii.rel 1) (wii.rel 3)
            (diff_micro_of (timersub now s.prev))) ∨
        ((finish_iteration K d s ret wii flag inp).send_call ≠ none ∧
          s'.last_report = now ∧
          s'.mouse_state.rel 0 = 0 ∧ s'.mouse_state.rel 1 = 0)) := by
  unfold finish_iteration at h ⊢
  cases hg : inp.gettimeofday with
  | none => simp [hg] at h
  | some now =>
    refine ⟨now, rfl, ?_⟩
    simp only [hg] at h ⊢
    split_ifs at h ⊢ <;> simp_all <;> try (subst h; simp)

theorem handle_event_btn (wii wii' : dev_state) (ev : xwii_event) (flag : Bool)
    (hb : ∀ k, wii.btn k = 0 ∨ wii.btn k = 1)
    (h : handle_event wii ev = event_outcome.proceed wii' flag) :
    ∀ k, wii'.btn k = 0 ∨ wii'.btn k = 1 := by
  have key : ∀ (code : Nat) (v : Int), (v = 0 ∨ v = 1) →
      ∀ k, Function.update wii.btn code v k = 0 ∨ Function.update wii.btn code v k = 1 := by
    intro code v hv k
    rw [Function.update_apply]
    split_ifs
    · exact hv
    · exact hb k
  cases ev <;> simp only [handle_event, event_outcome.proceed.injEq] at h
  case GONE => cases h
  case WATCH => obtain ⟨rfl, _⟩ := h; exact hb
  case KEY code state =>
    obtain ⟨rfl, _⟩ := h
    exact key code _ (by split_ifs <;> simp)
  case CLASSIC_CONTROLLER_KEY code state =>
    obtain ⟨rfl, _⟩ := h
    exact key code _ (by split_ifs <;> simp)
  case CLASSIC_CONTROLLER_MOVE => obtain ⟨rfl, _⟩ := h; exact hb
  case NUNCHUK_MOVE => obtain ⟨rfl, _⟩ := h; exact hb
  case other => obtain ⟨rfl, _⟩ := h; exact hb

theorem wii_after_dispatch_btn (s : loop_state) (inp : iter_input)
    (hb : ∀ k, s.wii_state.btn k = 0 ∨ s.wii_state.btn k = 1) :
    ∀ k, (wii_after_dispatch s inp).btn k = 0 ∨ (wii_after_dispatch s inp).btn k = 1 := by
  unfold wii_after_dispatch
  cases hd : inp.dispatch with
  | event ev =>
    simp only
    cases he : handle_event s.wii_state ev with
    | proceed wii flag => exact handle_event_btn _ _ _ _ hb he
    | gone => exact hb
  | eagain => exact hb
  | failed => exact hb

theorem loop_inv_step (K : xwii_keys) (d : Int) (s s' : loop_state) (inp : iter_input)
    (hs : loop_inv s) (h : (loop_iteration K d s inp).next = control.loop s') :
    loop_inv s' := by
  rcases loop_iteration_eq K d s inp with ⟨ret, he⟩ | ⟨_, ret, flag, he⟩
  · rw [he] at h; cases h
  · rw [he] at h
    obtain ⟨now, _, hw, _, h0, h1, _⟩ := finish_iteration_loop K d s ret _ flag inp s' h
    refine ⟨?_, ?_, ?_⟩
    · rw [hw]; exact wii_after_dispatch_btn s inp hs.1
    · rw [h0]; exact hs.2.1
    · rw [h1]; exact hs.2.2

theorem reachable_inv (K : xwii_keys) (d : Int) (s : loop_state)
    (hs : reachable K d s) : loop_inv s := by
  induction hs with
  | start now => exact ⟨fun _ => Or.inl rfl, rfl, rfl⟩
  | step s s' inp _ h ih => exact loop_inv_step K d s s' inp ih h

theorem button_byte_copy (K : xwii_keys) (old : Nat → Int) (wii : dev_state)
    (hb : ∀ k, wii.btn k = 0 ∨ wii.btn k = 1) :
    button_byte (copy_buttons K old wii) =
      (if wii.btn K.XWII_KEY_A ≠ 0 ∨ wii.btn K.XWII_KEY_TR ≠ 0 then 1 else 0) +
        2 * (if wii.btn K.XWII_KEY_B ≠ 0 then 1 else 0) := by
  have h0 : copy_buttons K old wii 0 =
      logical_or (wii.btn K.XWII_KEY_A) (wii.btn K.XWII_KEY_TR) := by
    simp [copy_buttons, Function.update_apply]
  have h1 : copy_buttons K old wii 1 = wii.btn K.XWII_KEY_B := by
    simp [copy_buttons, Function.update_apply]
  have h2 : copy_buttons K old wii 2 = 0 := by
    simp [copy_buttons, Function.update_apply]
  unfold button_byte
  rw [h0, h1, h2]
  unfold logical_or
  rcases hb K.XWII_KEY_A with ha | ha <;> rcases hb K.XWII_KEY_TR with ht | ht <;>
    rcases hb K.XWII_KEY_B with hB | hB <;> rw [ha, ht, hB] <;> decide

theorem sensitivity_eq : sensitivity = 3602879701896397 / 72057594037927936 := by
  unfold sensitivity
  rw [rnd_of_bounds (5 / 100) (-5) 7205759403792794 (by norm_num)
    (by rw [abs_of_pos (by norm_num)]; norm_num)
    (by rw [abs_of_pos (by norm_num)]; norm_num)
    (by rw [abs_lt]; constructor <;> norm_num)]
  norm_num

theorem d2i_zero : d2i 0 = 0 := by
  have := d2i_intCast 0 (by decide)
  simpa using this

theorem rel_x_of_zero : rel_x_of 0 = 0 := by
  simp [rel_x_of, fmul, fdiv, i2d, rnd_zero, d2i_zero]

theorem rel_y_of_zero : rel_y_of 0 = 0 := by
  simp [rel_y_of, wrap_int, fmul, fdiv, i2d, rnd_zero, d2i_zero]

theorem integrate_still (acc dm : Int) (hacc : in_int acc) : integrate acc 0 0 dm = acc := by
  simp only [in_int, INT_MIN, INT_MAX] at hacc
  unfold integrate fadd fmul r_factor
  rw [i2d_exact acc (by omega) (by omega), i2d_exact 0 (by omega) (by omega)]
  simp only [Int.cast_zero, mul_zero, add_zero, zero_mul, rnd_zero]
  rw [rnd_of_int (acc : ℚ) acc rfl (by omega) (by omega)]
  exact d2i_intCast acc (by simp only [in_int, INT_MIN, INT_MAX]; omega)

theorem rel_x_of_30000 : rel_x_of 30000 = 1 := by
  unfold rel_x_of fmul fdiv
  rw [i2d_exact 30000 (by norm_num) (by norm_num)]
  rw [rnd_of_int (((30000 : Int) : ℚ) / 1000) 30 (by norm_num) (by norm_num) (by norm_num)]
  rw [sensitivity_eq]
  rw [rnd_of_bounds _ 0 6755399441055744 (by norm_num)
    (by rw [abs_of_pos (by norm_num)]; norm_num)
    (by rw [abs_of_pos (by norm_num)]; norm_num)
    (by rw [abs_lt]; constructor <;> norm_num)]
  unfold d2i
  have ht : trunc ((6755399441055744 : Int) * (2 : ℚ) ^ ((0 : Int) - 52)) = 1 := by
    unfold trunc
    rw [if_pos (by norm_num), Int.floor_eq_iff]
    constructor <;> norm_num
  rw [ht]
  decide

theorem finish_iteration_send_call (K : xwii_keys) (d : Int) (s : loop_state)
    (ret : Option Int) (wii : dev_state) (flag : Bool) (inp : iter_input) (now : timeval)
    (hg : inp.gettimeofday = some now) :
    (finish_iteration K d s ret wii flag inp).send_call =
      if timercmp_gt (timersub now s.last_report) (delay_val d) = true ∨ flag = true then
        some [s.report.d0, s.report.d1, button_byte (copy_buttons K s.mouse_state.btn wii),
          motion_byte (rel_x_of (integrate (s.mouse_state.rel 0) (wii.rel 0) (wii.rel 2)
            (diff_micro_of (timersub now s.prev)))),
          motion_byte (rel_y_of (integrate (s.mouse_state.rel 1) (wii.rel 1) (wii.rel 3)
            (diff_micro_of (timersub now s.prev))))]
      else none := by
  unfold finish_iteration
  simp only [hg]
  split_ifs <;> simp_all [report.bytes]

theorem timer_fires_of_exceeds (now last : timeval) (d : Int) (hnow : now.wf)
    (hlast : last.wf) (hd : in_int d) (hd0 : 0 ≤ d)
    (h : d * 1000 < elapsed_micros now last) :
    timercmp_gt (timersub now last) (delay_val d) = true := by
  obtain ⟨hwf, heq⟩ := timersub_eq now last hnow hlast
  rw [delay_val_exact d hd]
  rw [← heq] at h
  simp only [timeval.wf] at hwf
  unfold timercmp_gt
  generalize (timersub now last).tv_sec = sec at *
  generalize (timersub now last).tv_usec = usec at *
  dsimp only
  split_ifs with h0
  · simp only [gt_iff_lt, decide_eq_true_eq]; omega
  · simp only [gt_iff_lt, decide_eq_true_eq]; omega

theorem timer_fires_iff (now last : timeval) (d : Int) (hnow : now.wf)
    (hlast : last.wf) (hd0 : 0 ≤ d) (hd : d < 1000) :
    timercmp_gt (timersub now last) (delay_val d) = true ↔
      d * 1000 < elapsed_micros now last := by
  obtain ⟨hwf, heq⟩ := timersub_eq now last hnow hlast
  rw [delay_val_exact d (by simp only [in_int, INT_MIN, INT_MAX]; omega)]
  rw [← heq]
  simp only [timeval.wf] at hwf
  unfold timercmp_gt
  generalize (timersub now last).tv_sec = sec at *
  generalize (timersub now last).tv_usec = usec at *
  dsimp only
  split_ifs with h0
  · simp only [gt_iff_lt, decide_eq_true_eq]; omega
  · simp only [gt_iff_lt, decide_eq_true_eq]; omega

theorem loop_iteration_event (K : xwii_keys) (d : Int) (s : loop_state) (inp : iter_input)
    (ev : xwii_event) (wii : dev_state) (flag : Bool)
    (hp : inp.poll ≠ poll_result.eintr) (hd : inp.dispatch = dispatch_result.event ev)
    (he : handle_event s.wii_state ev = event_outcome.proceed wii flag) :
    loop_iteration K d s inp =
      finish_iteration K d s (if inp.poll = poll_result.failed then some 0x80 else s.ret)
        wii flag inp := by
  unfold loop_iteration
  cases hpoll : inp.poll
  · simp [hd, he]
  · exact absurd hpoll hp
  · simp [hd, he]

theorem loop_iteration_eagain (K : xwii_keys) (d : Int) (s : loop_state) (inp : iter_input)
    (hp : inp.poll ≠ poll_result.eintr) (hd : inp.dispatch = dispatch_result.eagain) :
    loop_iteration K d s inp =
      finish_iteration K d s (if inp.poll = poll_result.failed then some 0x80 else s.ret)
        s.wii_state false inp := by
  unfold loop_iteration
  cases hpoll : inp.poll
  · simp [hd]
  · exact absurd hpoll hp
  · simp [hd]

theorem button_byte_released (K : xwii_keys) (old : Nat → Int) (wii : dev_state)
    (hb : ∀ k, wii.btn k = 0) : button_byte (copy_buttons K old wii) = 0 := by
  rw [button_byte_copy K old wii (fun k => Or.inl (hb k))]
  simp [hb]

theorem motion_byte_zero : motion_byte 0 = 0 := by decide

theorem motion_byte_one : motion_byte 1 = 1 := by decide

theorem send_call_still (K : xwii_keys) (d : Int) (s : loop_state)
    (ret : Option Int) (wii : dev_state) (flag : Bool) (inp : iter_input) (now : timeval)
    (hg : inp.gettimeofday = some now)
    (hacc : s.mouse_state.rel 0 = 0 ∧ s.mouse_state.rel 1 = 0)
    (hax : ∀ i, wii.rel i = 0) :
    (finish_iteration K d s ret wii flag inp).send_call =
      if timercmp_gt (timersub now s.last_report) (delay_val d) = true ∨ flag = true then
        some [s.report.d0, s.report.d1, button_byte (copy_buttons K s.mouse_state.btn wii),
          0, 0]
      else none := by
  rw [finish_iteration_send_call K d s ret wii flag inp now hg]
  simp only [hax, hacc.1, hacc.2, integrate_still 0 _ (by decide : in_int 0), rel_x_of_zero,
    rel_y_of_zero, motion_byte_zero]

theorem finish_iteration_continues (K : xwii_keys) (d : Int) (s : loop_state)
    (ret : Option Int) (wii : dev_state) (flag : Bool) (inp : iter_input) (now : timeval)
    (hg : inp.gettimeofday = some now) (hok : inp.send_ok = true) :
    ∃ s', (finish_iteration K d s ret wii flag inp).next = control.loop s' := by
  unfold finish_iteration
  simp only [hg, hok]
  split_ifs <;> first | exact ⟨_, rfl⟩ | contradiction

theorem loop_iteration_gone (K : xwii_keys) (d : Int) (s : loop_state) (inp : iter_input)
    (hd : inp.dispatch = dispatch_result.event xwii_event.GONE) :
    loop_iteration K d s inp = { send_call := none, next := control.leave (some 0) } := by
  unfold loop_iteration
  cases hpoll : inp.poll <;> simp [hd, handle_event]

theorem run_loop_loop (K : xwii_keys) (d : Int) (s s' : loop_state) (inp : iter_input)
    (rest : List iter_input) (h : (loop_iteration K d s inp).next = control.loop s') :
    run_loop K d s (inp :: rest) =
      { sends := (loop_iteration K d s inp).send_call.toList ++ (run_loop K d s' rest).sends,
        exit := (run_loop K d s' rest).exit } := by
  simp only [run_loop, h]

theorem run_loop_leave (K : xwii_keys) (d : Int) (s : loop_state) (inp : iter_input)
    (rest : List iter_input) (ret : Option Int)
    (h : (loop_iteration K d s inp).next = control.leave ret) :
    run_loop K d s (inp :: rest) =
      { sends := (loop_iteration K d s inp).send_call.toList, exit := some ret } := by
  simp only [run_loop, h]

theorem press_then_gone (p : poll_result) (hp : p ≠ poll_result.eintr) :
    (loop_iteration xwiimote_keys 30 (loop_state.init { tv_sec := 100, tv_usec := 0 })
        { poll := p, dispatch := dispatch_result.event (xwii_event.KEY 4 1),
          gettimeofday := some { tv_sec := 100, tv_usec := 5000 },
          send_ok := true }).send_call = some [0xA1, 0x02, 0x01, 0x00, 0x00] ∧
    (∃ s', (loop_iteration xwiimote_keys 30 (loop_state.init { tv_sec := 100, tv_usec := 0 })
        { poll := p, dispatch := dispatch_result.event (xwii_event.KEY 4 1),
          gettimeofday := some { tv_sec := 100, tv_usec := 5000 },
          send_ok := true }).next = control.loop s') ∧
    run_loop xwiimote_keys 30 (loop_state.init { tv_sec := 100, tv_usec := 0 })
        [{ poll := p, dispatch := dispatch_result.event (xwii_event.KEY 4 1),
           gettimeofday := some { tv_sec := 100, tv_usec := 5000 }, send_ok := true },
         { poll := poll_result.ready, dispatch := dispatch_result.event xwii_event.GONE,
           gettimeofday := none, send_ok := true }] =
      { sends := [[0xA1, 0x02, 0x01, 0x00, 0x00]], exit := some (some 0) } := by
  have he : handle_event (loop_state.init { tv_sec := 100, tv_usec := 0 }).wii_state
      (xwii_event.KEY 4 1) =
      event_outcome.proceed
        { btn := Function.update dev_state.zero.btn 4 1, rel := dev_state.zero.rel }
        true := rfl
  have hit := loop_iteration_event xwiimote_keys 30
    (loop_state.init { tv_sec := 100, tv_usec := 0 })
    { poll := p, dispatch := dispatch_result.event (xwii_event.KEY 4 1),
      gettimeofday := some { tv_sec := 100, tv_usec := 5000 }, send_ok := true }
    _ _ _ hp rfl he
  have hsend : (loop_iteration xwiimote_keys 30
      (loop_state.init { tv_sec := 100, tv_usec := 0 })
      { poll := p, dispatch := dispatch_result.event (xwii_event.KEY 4 1),
        gettimeofday := some { tv_sec := 100, tv_usec := 5000 },
        send_ok := true }).send_call = some [0xA1, 0x02, 0x01, 0x00, 0x00] := by
    rw [hit, send_call_still xwiimote_keys 30 _ _ _ _ _ _ rfl ⟨rfl, rfl⟩ (fun _ => rfl)]
    rw [if_pos (Or.inr rfl)]
    rw [button_byte_copy xwiimote_keys _ _ (by
      intro k
      simp only [Function.update_apply, loop_state.init, dev_state.zero]
      split_ifs <;> simp)]
    rfl
  have hnext : ∃ s', (loop_iteration xwiimote_keys 30
      (loop_state.init { tv_sec := 100, tv_usec := 0 })
      { poll := p, dispatch := dispatch_result.event (xwii_event.KEY 4 1),
        gettimeofday := some { tv_sec := 100, tv_usec := 5000 },
        send_ok := true }).next = control.loop s' := by
    rw [hit]
    exact finish_iteration_continues _ _ _ _ _ _ _ _ rfl rfl
  refine ⟨hsend, hnext, ?_⟩
  obtain ⟨s', hs'⟩ := hnext
  have hgone := loop_iteration_gone xwiimote_keys 30 s'
    { poll := poll_result.ready, dispatch := dispatch_result.event xwii_event.GONE,
      gettimeofday := none, send_ok := true } rfl
  rw [run_loop_loop _ _ _ _ _ _ hs', run_loop_leave _ _ _ _ _ _ (by rw [hgone]), hsend, hgone]
  rfl

theorem quiet_send_call (K : xwii_keys) (d : Int) (s : loop_state) (inp : iter_input)
    (hs : quiet_state s) (hp : inp.poll ≠ poll_result.eintr)
    (hq : inp.dispatch = dispatch_result.eagain) (now : timeval)
    (hg : inp.gettimeofday = some now) :
    (loop_iteration K d s inp).send_call =
      if timercmp_gt (timersub now s.last_report) (delay_val d) = true then
        some [0xA1, 0x02, 0x00, 0x00, 0x00]
      else none := by
  obtain ⟨hrel, hbtn, h0, h1, hrep, _⟩ := hs
  rw [loop_iteration_eagain K d s inp hp hq]
  rw [send_call_still K d s _ _ false inp now hg ⟨h0, h1⟩ hrel]
  rw [button_byte_released K _ _ hbtn, hrep]
  simp [report.init]

theorem quiet_step (K : xwii_keys) (d : Int) (s s' : loop_state) (inp : iter_input)
    (hs : quiet_state s) (hq : inp.dispatch = dispatch_result.eagain)
    (hwf : ∀ t, inp.gettimeofday = some t → t.wf)
    (h : (loop_iteration K d s inp).next = control.loop s') : quiet_state s' := by
  have hp : inp.poll ≠ poll_result.eintr := by
    intro hp
    unfold loop_iteration at h
    simp [hp] at h
  obtain ⟨hrel, hbtn, h0, h1, hrep, hlast⟩ := hs
  rw [loop_iteration_eagain K d s inp hp hq] at h
  unfold finish_iteration at h
  cases hg : inp.gettimeofday with
  | none => simp [hg] at h
  | some now =>
    have hnow := hwf now hg
    simp only [hg, hrel, h0, h1, integrate_still 0 _ (by decide : in_int 0), rel_x_of_zero,
      rel_y_of_zero, motion_byte_zero, button_byte_released K _ _ hbtn, hrep] at h
    split_ifs at h
    all_goals try contradiction
    all_goals
      cases h
      refine ⟨hrel, hbtn, ?_, ?_, ?_, ?_⟩ <;>
        first
          | exact hlast
          | exact hnow
          | rfl

theorem quiet_send_some (K : xwii_keys) (d : Int) (s : loop_state) (inp : iter_input)
    (hs : quiet_state s) (hq : inp.dispatch = dispatch_result.eagain) (r : List Nat)
    (h : (loop_iteration K d s inp).send_call = some r) :
    r = [0xA1, 0x02, 0x00, 0x00, 0x00] := by
  rcases loop_iteration_eq K d s inp with ⟨ret, he⟩ | ⟨hp, ret, flag, he⟩
  · rw [he] at h; cases h
  · have h' := h
    rw [he] at h'
    obtain ⟨now, hg, _⟩ := finish_iteration_send K d s ret _ flag inp r h'
    rw [quiet_send_call K d s inp hs hp hq now hg] at h
    split_ifs at h
    · exact (Option.some.inj h).symm

theorem iterations_quiet (K : xwii_keys) (d : Int) (inputs : List iter_input) :
    ∀ s : loop_state, quiet_state s →
      (∀ inp ∈ inputs, ∀ t, inp.gettimeofday = some t → t.wf) →
      (∀ inp ∈ inputs, inp.dispatch = dispatch_result.eagain) →
      ∀ p ∈ iterations K d s inputs, quiet_state p.1 ∧ p.2 ∈ inputs := by
  induction inputs with
  | nil => intro s _ _ _ p hp; simp [iterations] at hp
  | cons inp rest ih =>
    intro s hs hwf hq p hp
    unfold iterations at hp
    cases hn : (loop_iteration K d s inp).next with
    | leave ret =>
      simp only [hn, List.mem_singleton] at hp
      subst hp
      exact ⟨hs, List.mem_cons_self _ _⟩
    | loop s' =>
      simp only [hn, List.mem_cons] at hp
      rcases hp with rfl | hp
      · exact ⟨hs, List.mem_cons_self _ _⟩
      · have hs' := quiet_step K d s s' inp hs (hq inp (List.mem_cons_self _ _))
          (hwf inp (List.mem_cons_self _ _)) hn
        obtain ⟨h1, h2⟩ := ih s' hs' (fun i hi => hwf i (List.mem_cons_of_mem _ hi))
          (fun i hi => hq i (List.mem_cons_of_mem _ hi)) p hp
        exact ⟨h1, List.mem_cons_of_mem _ h2⟩

theorem run_loop_quiet (K : xwii_keys) (d : Int) (inputs : List iter_input) :
    ∀ s : loop_state, quiet_state s →
      (∀ inp ∈ inputs, ∀ t, inp.gettimeofday = some t → t.wf) →
      (∀ inp ∈ inputs, inp.dispatch = dispatch_result.eagain) →
      ∀ r ∈ (run_loop K d s inputs).sends, r = [0xA1, 0x02, 0x00, 0x00, 0x00] := by
  induction inputs with
  | nil => intro s _ _ _ r hr; simp [run_loop] at hr
  | cons inp rest ih =>
    intro s hs hwf hq r hr
    have hq0 := hq inp (List.mem_cons_self _ _)
    cases hn : (loop_iteration K d s inp).next with
    | leave ret =>
      rw [run_loop_leave K d s inp rest ret hn] at hr
      simp only [Option.mem_toList, Option.mem_def] at hr
      exact quiet_send_some K d s inp hs hq0 r hr
    | loop s' =>
      rw [run_loop_loop K d s s' inp rest hn] at hr
      simp only [List.mem_append, Option.mem_toList, Option.mem_def] at hr
      rcases hr with hr | hr
      · exact quiet_send_some K d s inp hs hq0 r hr
      · exact ih s' (quiet_step K d s s' inp hs hq0 (hwf inp (List.mem_cons_self _ _)) hn)
          (fun i hi => hwf i (List.mem_cons_of_mem _ hi))
          (fun i hi => hq i (List.mem_cons_of_mem _ hi)) r hr

theorem quiet_init (now : timeval) (h : now.wf) : quiet_state (loop_state.init now) :=
  ⟨fun _ => rfl, fun _ => rfl, rfl, rfl, rfl, h⟩

theorem in_int_wrap (x : Int) : in_int (wrap_int x) := by
  simp only [in_int, INT_MIN, INT_MAX, wrap_int]
  omega

theorem in_int_deadzone (x : Int) : in_int (CORRECT_DEADZONE x) := by
  unfold CORRECT_DEADZONE
  split_ifs
  · decide
  · exact in_int_wrap _
  · exact in_int_wrap _

theorem handle_event_rel (wii wii' : dev_state) (ev : xwii_event) (flag : Bool)
    (hb : ∀ i, in_int (wii.rel i))
    (h : handle_event wii ev = event_outcome.proceed wii' flag) :
    ∀ i, in_int (wii'.rel i) := by
  cases ev <;> simp only [handle_event, event_outcome.proceed.injEq] at h
  case GONE => cases h
  case WATCH => obtain ⟨rfl, _⟩ := h; exact hb
  case KEY code state => obtain ⟨rfl, _⟩ := h; exact hb
  case CLASSIC_CONTROLLER_KEY code state => obtain ⟨rfl, _⟩ := h; exact hb
  case CLASSIC_CONTROLLER_MOVE x0 y0 x1 y1 =>
    obtain ⟨rfl, _⟩ := h
    intro i
    simp only [Function.update_apply]
    split_ifs <;> first | exact in_int_deadzone _ | exact hb i
  case NUNCHUK_MOVE x0 y0 =>
    obtain ⟨rfl, _⟩ := h
    intro i
    simp only [Function.update_apply]
    split_ifs <;> first | exact d2i_in_int _ | exact hb i
  case other => obtain ⟨rfl, _⟩ := h; exact hb

theorem wii_after_dispatch_rel (s : loop_state) (inp : iter_input)
    (hb : ∀ i, in_int (s.wii_state.rel i)) :
    ∀ i, in_int ((wii_after_dispatch s inp).rel i) := by
  unfold wii_after_dispatch
  cases hd : inp.dispatch with
  | event ev =>
    simp only
    cases he : handle_event s.wii_state ev with
    | proceed wii flag => exact handle_event_rel _ _ _ _ hb he
    | gone => exact hb
  | eagain => exact hb
  | failed => exact hb

theorem motion_inv_step (K : xwii_keys) (d : Int) (s s' : loop_state) (inp : iter_input)
    (hist : List frame) (hs : motion_inv s hist)
    (hwf : ∀ t, inp.gettimeofday = some t → t.wf)
    (hel : in_int (frame_of K d s inp).elapsed)
    (hfit : partial_sums_fit (frame_of K d s inp :: hist))
    (h : (loop_iteration K d s inp).next = control.loop s') :
    motion_inv s' (frame_of K d s inp :: hist) := by
  obtain ⟨hx, hy, hix, hiy, hrel, hprev⟩ := hs
  obtain ⟨hfx, hfy, _⟩ := hfit
  have hw := wii_after_dispatch_rel s inp hrel
  rcases loop_iteration_eq K d s inp with ⟨ret, he⟩ | ⟨_, ret, flag, he⟩
  · rw [he] at h; cases h
  · have h' := h
    rw [he] at h'
    obtain ⟨now, hg, hwii, hpr, _, _, hcase⟩ :=
      finish_iteration_loop K d s ret _ flag inp s' h'
    have hnow := hwf now hg
    have helapsed : (frame_of K d s inp).elapsed = elapsed_micros now s.prev := by
      simp [frame_of, hg]
    rw [helapsed] at hel hfx hfy
    have hdm := diff_micro_exact now s.prev hnow hprev hel
    rw [← he] at hcase
    rcases hcase with ⟨hnone, _, _, h0, h1⟩ | ⟨hsome, _, h0, h1⟩
    · have hrep : (frame_of K d s inp).reported = false := by
        simp [frame_of, hnone]
      simp only [frame_of] at hfx hfy
      rw [← hx] at hfx
      rw [← hy] at hfy
      rw [hdm, integrate_exact _ _ _ _ hix (hw 0) (hw 2) hel hfx] at h0
      rw [hdm, integrate_exact _ _ _ _ hiy (hw 1) (hw 3) hel hfy] at h1
      refine ⟨?_, ?_, ?_, ?_, ?_, ?_⟩
      · rw [h0, motion_since_report, hrep, hx]; simp [frame_of, hg]
      · rw [h1, motion_since_report, hrep, hy]; simp [frame_of, hg]
      · rw [h0]; exact hfx
      · rw [h1]; exact hfy
      · rw [hwii]; exact hw
      · rw [hpr]; exact hnow
    · have hrep : (frame_of K d s inp).reported = true := by
        simp only [frame_of]
        exact Option.isSome_iff_ne_none.mpr hsome
      refine ⟨?_, ?_, ?_, ?_, ?_, ?_⟩
      · rw [h0, motion_since_report, hrep]; rfl
      · rw [h1, motion_since_report, hrep]; rfl
      · rw [h0]; decide
      · rw [h1]; decide
      · rw [hwii]; exact hw
      · rw [hpr]; exact hnow

theorem timer_fires_late (now last : timeval) (d : Int) (hnow : now.wf) (hlast : last.wf)
    (h : 1000000 ≤ elapsed_micros now last) :
    timercmp_gt (timersub now last) (delay_val d) = true := by
  obtain ⟨hwf, heq⟩ := timersub_eq now last hnow hlast
  rw [← heq] at h
  simp only [timeval.wf] at hwf
  unfold timercmp_gt delay_val
  generalize (timersub now last).tv_sec = sec at *
  generalize (timersub now last).tv_usec = usec at *
  dsimp only
  rw [if_neg (by omega)]
  simp only [gt_iff_lt, decide_eq_true_eq]
  omega

theorem elapsed_micros_add (a b c : timeval) :
    elapsed_micros a c = elapsed_micros a b + elapsed_micros b c := by
  unfold elapsed_micros
  ring

theorem motion_inv_step_late (K : xwii_keys) (d : Int) (s s' : loop_state)
    (inp : iter_input) (hist : List frame) (hs : motion_inv s hist) (hc : clock_inv s)
    (hwf : ∀ t, inp.gettimeofday = some t → t.wf)
    (hel : INT_MAX < (frame_of K d s inp).elapsed)
    (h : (loop_iteration K d s inp).next = control.loop s') :
    motion_inv s' (frame_of K d s inp :: hist) := by
  obtain ⟨_, _, _, _, hrel, hprev⟩ := hs
  obtain ⟨hlast, hord⟩ := hc
  have hw := wii_after_dispatch_rel s inp hrel
  rcases loop_iteration_eq K d s inp with ⟨ret, he⟩ | ⟨_, ret, flag, he⟩
  · rw [he] at h; cases h
  · have h' := h
    rw [he] at h'
    obtain ⟨now, hg, hwii, hpr, _, _, hcase⟩ :=
      finish_iteration_loop K d s ret _ flag inp s' h'
    have hnow := hwf now hg
    have helapsed : (frame_of K d s inp).elapsed = elapsed_micros now s.prev := by
      simp [frame_of, hg]
    rw [helapsed] at hel
    simp only [INT_MAX] at hel
    have hfire : timercmp_gt (timersub now s.last_report) (delay_val d) = true := by
      apply timer_fires_late now s.last_report d hnow hlast
      rw [elapsed_micros_add now s.prev s.last_report]
      omega
    have hsome : (loop_iteration K d s inp).send_call ≠ none := by
      rw [he, finish_iteration_send_call K d s ret _ flag inp now hg, if_pos (Or.inl hfire)]
      simp
    rw [← he] at hcase
    rcases hcase with ⟨hnone, _⟩ | ⟨_, _, h0, h1⟩
    · exact absurd hnone hsome
    · have hrep : (frame_of K d s inp).reported = true := by
        simp only [frame_of]
        exact Option.isSome_iff_ne_none.mpr hsome
      refine ⟨?_, ?_, ?_, ?_, ?_, ?_⟩
      · rw [h0, motion_since_report, hrep]; rfl
      · rw [h1, motion_since_report, hrep]; rfl
      · rw [h0]; decide
      · rw [h1]; decide
      · rw [hwii]; exact hw
      · rw [hpr]; exact hnow

theorem clock_inv_step (K : xwii_keys) (d : Int) (s s' : loop_state) (inp : iter_input)
    (hc : clock_inv s) (hwf : ∀ t, inp.gettimeofday = some t → t.wf)
    (hel : 0 ≤ (frame_of K d s inp).elapsed)
    (h : (loop_iteration K d s inp).next = control.loop s') : clock_inv s' := by
  obtain ⟨hlast, hord⟩ := hc
  rcases loop_iteration_eq K d s inp with ⟨ret, he⟩ | ⟨_, ret, flag, he⟩
  · rw [he] at h; cases h
  · rw [he] at h
    obtain ⟨now, hg, _, hpr, _, _, hcase⟩ :=
      finish_iteration_loop K d s ret _ flag inp s' h
    have hnow := hwf now hg
    have helapsed : (frame_of K d s inp).elapsed = elapsed_micros now s.prev := by
      simp [frame_of, hg]
    rw [helapsed] at hel
    rcases hcase with ⟨_, hl, _⟩ | ⟨_, hl, _⟩
    · refine ⟨by rw [hl]; exact hlast, ?_⟩
      rw [hpr, hl, elapsed_micros_add now s.prev s.last_report]
      omega
    · refine ⟨by rw [hl]; exact hnow, ?_⟩
      rw [hpr, hl]
      simp [elapsed_micros]

theorem frames_from_loop (K : xwii_keys) (d : Int) (s s' : loop_state) (inp : iter_input)
    (rest : List iter_input) (hist : List frame)
    (h : (loop_iteration K d s inp).next = control.loop s') :
    frames_from K d s (inp :: rest) hist =
      frames_from K d s' rest (frame_of K d s inp :: hist) := by
  simp only [frames_from, h]

theorem final_state_loop (K : xwii_keys) (d : Int) (s s' : loop_state) (inp : iter_input)
    (rest : List iter_input) (h : (loop_iteration K d s inp).next = control.loop s') :
    final_state K d s (inp :: rest) = final_state K d s' rest := by
  simp only [final_state, h]

theorem final_state_leave (K : xwii_keys) (d : Int) (s : loop_state) (inp : iter_input)
    (rest : List iter_input) (ret : Option Int)
    (h : (loop_iteration K d s inp).next = control.leave ret) :
    final_state K d s (inp :: rest) = none := by
  simp only [final_state, h]

theorem fit_of_frames_from (K : xwii_keys) (d : Int) (inputs : List iter_input) :
    ∀ (s : loop_state) (hist : List frame),
      partial_sums_fit (frames_from K d s inputs hist) → partial_sums_fit hist := by
  induction inputs with
  | nil => intro s hist h; exact h
  | cons inp rest ih =>
    intro s hist h
    cases hn : (loop_iteration K d s inp).next with
    | leave ret => simpa only [frames_from, hn] using h
    | loop s' =>
      rw [frames_from_loop K d s s' inp rest hist hn] at h
      exact (ih s' _ h).2.2

theorem mem_frames_from (K : xwii_keys) (d : Int) (inputs : List iter_input) :
    ∀ (s : loop_state) (hist : List frame) (f : frame),
      f ∈ hist → f ∈ frames_from K d s inputs hist := by
  induction inputs with
  | nil => intro s hist f h; exact h
  | cons inp rest ih =>
    intro s hist f h
    cases hn : (loop_iteration K d s inp).next with
    | leave ret => simpa only [frames_from, hn] using h
    | loop s' =>
      rw [frames_from_loop K d s s' inp rest hist hn]
      exact ih s' _ f (List.mem_cons_of_mem _ h)

theorem motion_inv_run (K : xwii_keys) (d : Int) (inputs : List iter_input) :
    ∀ (s s' : loop_state) (hist : List frame), motion_inv s hist →
      (∀ inp ∈ inputs, ∀ t, inp.gettimeofday = some t → t.wf) →
      final_state K d s inputs = some s' →
      partial_sums_fit (frames_from K d s inputs hist) →
      (∀ f ∈ frames_from K d s inputs hist, in_int f.elapsed) →
      motion_inv s' (frames_from K d s inputs hist) ∧
        (frames_from K d s inputs hist).length = inputs.length + hist.length := by
  induction inputs with
  | nil =>
    intro s s' hist hs _ hrun _ _
    simp only [final_state, Option.some.injEq] at hrun
    subst hrun
    exact ⟨hs, by simp [frames_from]⟩
  | cons inp rest ih =>
    intro s s' hist hs hwf hrun hfit hel
    cases hn : (loop_iteration K d s inp).next with
    | leave ret =>
      rw [final_state_leave K d s inp rest ret hn] at hrun
      cases hrun
    | loop s1 =>
      rw [final_state_loop K d s s1 inp rest hn] at hrun
      rw [frames_from_loop K d s s1 inp rest hist hn] at hfit hel ⊢
      have hstep := motion_inv_step K d s s1 inp hist hs (hwf inp (List.mem_cons_self _ _))
        (hel _ (mem_frames_from K d rest s1 _ _ (List.mem_cons_self _ _)))
        (fit_of_frames_from K d rest s1 _ hfit) hn
      obtain ⟨h1, h2⟩ := ih s1 s' _ hstep (fun i hi => hwf i (List.mem_cons_of_mem _ hi))
        hrun hfit hel
      refine ⟨h1, ?_⟩
      rw [h2]
      simp only [List.length_cons]
      omega

theorem motion_inv_run_forward (K : xwii_keys) (d : Int) (inputs : List iter_input) :
    ∀ (s s' : loop_state) (hist : List frame), motion_inv s hist → clock_inv s →
      (∀ inp ∈ inputs, ∀ t, inp.gettimeofday = some t → t.wf) →
      final_state K d s inputs = some s' →
      partial_sums_fit (frames_from K d s inputs hist) →
      (∀ f ∈ frames_from K d s inputs hist, 0 ≤ f.elapsed) →
      motion_inv s' (frames_from K d s inputs hist) ∧
        (frames_from K d s inputs hist).length = inputs.length + hist.length := by
  induction inputs with
  | nil =>
    intro s s' hist hs _ _ hrun _ _
    simp only [final_state, Option.some.injEq] at hrun
    subst hrun
    exact ⟨hs, by simp [frames_from]⟩
  | cons inp rest ih =>
    intro s s' hist hs hc hwf hrun hfit hel
    cases hn : (loop_iteration K d s inp).next with
    | leave ret =>
      rw [final_state_leave K d s inp rest ret hn] at hrun
      cases hrun
    | loop s1 =>
      rw [final_state_loop K d s s1 inp rest hn] at hrun
      rw [frames_from_loop K d s s1 inp rest hist hn] at hfit hel ⊢
      have hwf0 := hwf inp (List.mem_cons_self _ _)
      have hel0 := hel _ (mem_frames_from K d rest s1 _ _ (List.mem_cons_self _ _))
      have hstep : motion_inv s1 (frame_of K d s inp :: hist) := by
        by_cases hsmall : (frame_of K d s inp).elapsed ≤ INT_MAX
        · exact motion_inv_step K d s s1 inp hist hs hwf0
            ⟨by simp only [INT_MIN]; omega, hsmall⟩
            (fit_of_frames_from K d rest s1 _ hfit) hn
        · exact motion_inv_step_late K d s s1 inp hist hs hc hwf0 (by omega) hn
      have hclock := clock_inv_step K d s s1 inp hc hwf0 hel0 hn
      obtain ⟨h1, h2⟩ := ih s1 s' _ hstep hclock
        (fun i hi => hwf i (List.mem_cons_of_mem _ hi)) hrun hfit hel
      refine ⟨h1, ?_⟩
      rw [h2]
      simp only [List.length_cons]
      omega

theorem heartbeat_send_call :
    (loop_iteration xwiimote_keys 30 (loop_state.init { tv_sec := 100, tv_usec := 0 })
      { poll := poll_result.ready, dispatch := dispatch_result.eagain,
        gettimeofday := some { tv_sec := 100, tv_usec := 40000 },
        send_ok := true }).send_call = some [0xA1, 0x02, 0x00, 0x00, 0x00] := by
  rw [quiet_send_call xwiimote_keys 30 _ _ (quiet_init _ (by decide)) (by decide) rfl _ rfl]
  rw [delay_val_exact 30 (by decide)]
  rfl

theorem move_iteration_next :
    ∃ s', (loop_iteration xwiimote_keys 30 (loop_state.init { tv_sec := 100, tv_usec := 0 })
      { poll := poll_result.ready,
        dispatch := dispatch_result.event (xwii_event.CLASSIC_CONTROLLER_MOVE 50 0 0 0),
        gettimeofday := some { tv_sec := 100, tv_usec := 1000 },
        send_ok := true }).next = control.loop s' := by
  have he : handle_event (loop_state.init { tv_sec := 100, tv_usec := 0 }).wii_state
      (xwii_event.CLASSIC_CONTROLLER_MOVE 50 0 0 0) =
      event_outcome.proceed
        { btn := dev_state.zero.btn,
          rel := Function.update (Function.update (Function.update (Function.update
            dev_state.zero.rel 0 30) 1 0) 2 0) 3 0 } false := rfl
  rw [loop_iteration_event xwiimote_keys 30 _ _ _ _ _ (by decide) rfl he]
  exact finish_iteration_continues _ _ _ _ _ _ _ _ rfl rfl

theorem move_iteration_send_call :
    (loop_iteration xwiimote_keys 30 (loop_state.init { tv_sec := 100, tv_usec := 0 })
      { poll := poll_result.ready,
        dispatch := dispatch_result.event (xwii_event.CLASSIC_CONTROLLER_MOVE 50 0 0 0),
        gettimeofday := some { tv_sec := 100, tv_usec := 1000 },
        send_ok := true }).send_call = none := by
  have he : handle_event (loop_state.init { tv_sec := 100, tv_usec := 0 }).wii_state
      (xwii_event.CLASSIC_CONTROLLER_MOVE 50 0 0 0) =
      event_outcome.proceed
        { btn := dev_state.zero.btn,
          rel := Function.update (Function.update (Function.update (Function.update
            dev_state.zero.rel 0 30) 1 0) 2 0) 3 0 } false := rfl
  rw [loop_iteration_event xwiimote_keys 30 _ _ _ _ _ (by decide) rfl he]
  rw [finish_iteration_send_call xwiimote_keys 30 _ _ _ _ _ _ rfl]
  rw [delay_val_exact 30 (by decide)]
  rfl

theorem key_event_iteration (K : xwii_keys) (d : Int) (s : loop_state) (inp : iter_input)
    (ev : xwii_event) (code state : Nat) (now : timeval)
    (hev : ev = xwii_event.KEY code state ∨ ev = xwii_event.CLASSIC_CONTROLLER_KEY code state)
    (hp : inp.poll ≠ poll_result.eintr) (hd : inp.dispatch = dispatch_result.event ev)
    (hg : inp.gettimeofday = some now) :
    (wii_after_dispatch s inp).btn code = (if state ≠ 0 then 1 else 0) ∧
      (∀ k, k ≠ code → (wii_after_dispatch s inp).btn k = s.wii_state.btn k) ∧
      (state = 2 → timercmp_gt (timersub now s.last_report) (delay_val d) = false →
        (loop_iteration K d s inp).send_call = none) ∧
      (state ≠ 2 → (loop_iteration K d s inp).send_call ≠ none) := by
  have he : handle_event s.wii_state ev = event_outcome.proceed
      { btn := Function.update s.wii_state.btn code (if state ≠ 0 then 1 else 0),
        rel := s.wii_state.rel } (decide (state ≠ 2)) := by
    rcases hev with rfl | rfl <;> rfl
  have hw : wii_after_dispatch s inp =
      { btn := Function.update s.wii_state.btn code (if state ≠ 0 then 1 else 0),
        rel := s.wii_state.rel } := by
    simp only [wii_after_dispatch, hd, he]
  rw [hw, loop_iteration_event K d s inp ev _ _ hp hd he,
    finish_iteration_send_call K d s _ _ _ inp now hg]
  refine ⟨by simp, ?_, ?_, ?_⟩
  · intro k hk
    simp [Function.update_apply, hk]
  · intro h2 ht
    simp [h2, ht]
  · intro h2
    simp [h2]

theorem d2i_intCast_out (n : Int) (h : ¬ in_int n) : d2i (n : ℚ) = INT_MIN := by
  unfold d2i
  rw [trunc_intCast, if_neg h]

theorem move_step_silent (K : xwii_keys) (d : Int) (s : loop_state) (inp : iter_input)
    (x0 y0 x1 y1 : Int) (now : timeval) (hp : inp.poll ≠ poll_result.eintr)
    (hd : inp.dispatch =
      dispatch_result.event (xwii_event.CLASSIC_CONTROLLER_MOVE x0 y0 x1 y1))
    (hg : inp.gettimeofday = some now) (hok : inp.send_ok = true)
    (ht : timercmp_gt (timersub now s.last_report) (delay_val d) = false) :
    ∃ s', (loop_iteration K d s inp).next = control.loop s' ∧
      frame_of K d s inp =
        { axis0 := CORRECT_DEADZONE x0, axis1 := CORRECT_DEADZONE y0,
          axis2 := CORRECT_DEADZONE x1, axis3 := CORRECT_DEADZONE y1,
          elapsed := elapsed_micros now s.prev, reported := false } ∧
      s'.prev = now ∧ s'.last_report = s.last_report ∧
      s'.mouse_state.rel 0 = integrate (s.mouse_state.rel 0) (CORRECT_DEADZONE x0)
        (CORRECT_DEADZONE x1) (diff_micro_of (timersub now s.prev)) ∧
      s'.mouse_state.rel 1 = integrate (s.mouse_state.rel 1) (CORRECT_DEADZONE y0)
        (CORRECT_DEADZONE y1) (diff_micro_of (timersub now s.prev)) := by
  have he : handle_event s.wii_state (xwii_event.CLASSIC_CONTROLLER_MOVE x0 y0 x1 y1) =
      event_outcome.proceed
        { btn := s.wii_state.btn,
          rel := Function.update (Function.update (Function.update (Function.update
            s.wii_state.rel 0 (CORRECT_DEADZONE x0)) 1 (CORRECT_DEADZONE y0))
            2 (CORRECT_DEADZONE x1)) 3 (CORRECT_DEADZONE y1) } false := rfl
  have hit := loop_iteration_event K d s inp _ _ _ hp hd he
  have hsend : (loop_iteration K d s inp).send_call = none := by
    rw [hit, finish_iteration_send_call K d s _ _ _ inp now hg]
    simp [ht]
  obtain ⟨s', hs'⟩ : ∃ s', (loop_iteration K d s inp).next = control.loop s' := by
    rw [hit]
    exact finish_iteration_continues _ _ _ _ _ _ _ now hg hok
  have hs'' := hs'
  rw [hit] at hs''
  obtain ⟨now', hg', _, hpr, _, _, hcase⟩ := finish_iteration_loop K d s _ _ _ inp s' hs''
  have hnow : now' = now := by
    rw [hg] at hg'
    exact (Option.some.inj hg').symm
  subst hnow
  rw [← hit] at hcase
  refine ⟨s', hs', ?_, hpr, ?_⟩
  · simp [frame_of, wii_after_dispatch, hd, handle_event, hg, hsend, Function.update_apply]
  · rcases hcase with ⟨_, hl, _, h0, h1⟩ | ⟨hsome, _⟩
    · refine ⟨hl, ?_, ?_⟩
      · simpa [Function.update_apply] using h0
      · simpa [Function.update_apply] using h1
    · exact absurd hsend hsome

/-! ## Properties of the specification -/

/-- C1: deadzone correction on a signed 32-bit operand is 0 strictly inside
(-20, 20), `v - 20` from 20 upward and `v + 20` from -20 downward. -/
theorem C1_correct_deadzone (v : Int) (hv : in_int v) :
    (-20 < v ∧ v < 20 → CORRECT_DEADZONE v = 0) ∧
    (20 ≤ v → CORRECT_DEADZONE v = v - 20) ∧
    (v ≤ -20 → CORRECT_DEADZONE v = v + 20) := by
  simp only [in_int, INT_MIN, INT_MAX] at hv
  unfold CORRECT_DEADZONE wrap_int DEADZONE
  refine ⟨?_, ?_, ?_⟩
  · intro h
    rw [if_pos ⟨by omega, by omega⟩]
  · intro h
    rw [if_neg (by omega), if_neg (by omega)]
    omega
  · intro h
    rw [if_neg (by omega), if_pos (by omega)]
    omega

/-- C1 at `v = 50`. -/
theorem C1_correct_deadzone_witness :
    in_int 50 ∧ CORRECT_DEADZONE 50 = 50 - 20 :=
  ⟨by decide, (C1_correct_deadzone 50 (by decide)).2.1 (by decide)⟩

/-- C2, amended: after any sequence of completed iterations from startup, with
every partial sum within a signed 32-bit `int` and a clock whose elapsed times
all fit in an `int` or are all non-negative, the accumulated motion equals the
exact reference sums over the iterations since the most recent report, one
frame per iteration; it is (0, 0) at the end of an iteration that sent a
report. -/
theorem C2_motion_integration_exact (K : xwii_keys) (delay_millis : Int) (now0 : timeval)
    (inputs : List iter_input) (s' : loop_state) (hwf0 : now0.wf)
    (hwf : ∀ inp ∈ inputs, ∀ t, inp.gettimeofday = some t → t.wf)
    (hclock : clock_fit (frames_from K delay_millis (loop_state.init now0) inputs []))
    (hrun : final_state K delay_millis (loop_state.init now0) inputs = some s')
    (hfit : partial_sums_fit (frames_from K delay_millis (loop_state.init now0) inputs [])) :
    (s'.mouse_state.rel 0, s'.mouse_state.rel 1) =
        motion_since_report (frames_from K delay_millis (loop_state.init now0) inputs []) ∧
      (frames_from K delay_millis (loop_state.init now0) inputs []).length = inputs.length ∧
      (∀ f older, frames_from K delay_millis (loop_state.init now0) inputs [] = f :: older →
        f.reported = true → s'.mouse_state.rel 0 = 0 ∧ s'.mouse_state.rel 1 = 0) := by
  have hinit : motion_inv (loop_state.init now0) [] :=
    ⟨rfl, rfl, (by decide : in_int 0), (by decide : in_int 0),
      fun _ => (by decide : in_int 0), hwf0⟩
  have hcinit : clock_inv (loop_state.init now0) :=
    ⟨hwf0, by simp [elapsed_micros, loop_state.init]⟩
  have hmain : motion_inv s' (frames_from K delay_millis (loop_state.init now0) inputs []) ∧
      (frames_from K delay_millis (loop_state.init now0) inputs []).length =
        inputs.length + ([] : List frame).length := by
    rcases hclock with hsmall | hforward
    · exact motion_inv_run K delay_millis inputs _ s' [] hinit hwf hrun hfit hsmall
    · exact motion_inv_run_forward K delay_millis inputs _ s' [] hinit hcinit hwf hrun hfit
        hforward
  obtain ⟨⟨hx, hy, _⟩, hlen⟩ := hmain
  refine ⟨by rw [hx, hy], by simpa using hlen, ?_⟩
  intro f older hf hrep
  rw [hf, motion_since_report, if_pos hrep] at hx hy
  exact ⟨hx, hy⟩

/-- C2 as stated fails when the clock is set back by more than `2 ^ 31`
microseconds between two iterations. Startup at 10000 s, report interval
30 ms; a move event with axis0 = 2000020 (corrected to 2000000) at 1000
microseconds accumulates 2000000000; a move event with axis0 = 21 (corrected
to 1) then arrives with the clock 2200 s earlier. Both partial sums,
2000000000 and -200000000, fit in an `int` and no report is sent, but the
elapsed -2200000000 does not fit `diff_micro`: the accumulator ends at
-147483648, not at the reference sum -200000000. -/
theorem C2_clock_set_back_counterexample :
    ∃ s', timeval.wf { tv_sec := 10000, tv_usec := 0 } ∧
      timeval.wf { tv_sec := 10000, tv_usec := 1000 } ∧
      timeval.wf { tv_sec := 7800, tv_usec := 1000 } ∧
      final_state xwiimote_keys 30 (loop_state.init { tv_sec := 10000, tv_usec := 0 })
        [{ poll := poll_result.ready,
           dispatch := dispatch_result.event
             (xwii_event.CLASSIC_CONTROLLER_MOVE 2000020 0 0 0),
           gettimeofday := some { tv_sec := 10000, tv_usec := 1000 }, send_ok := true },
         { poll := poll_result.ready,
           dispatch := dispatch_result.event (xwii_event.CLASSIC_CONTROLLER_MOVE 21 0 0 0),
           gettimeofday := some { tv_sec := 7800, tv_usec := 1000 },
           send_ok := true }] = some s' ∧
      partial_sums_fit (frames_from xwiimote_keys 30
        (loop_state.init { tv_sec := 10000, tv_usec := 0 })
        [{ poll := poll_result.ready,
           dispatch := dispatch_result.event
             (xwii_event.CLASSIC_CONTROLLER_MOVE 2000020 0 0 0),
           gettimeofday := some { tv_sec := 10000, tv_usec := 1000 }, send_ok := true },
         { poll := poll_result.ready,
           dispatch := dispatch_result.event (xwii_event.CLASSIC_CONTROLLER_MOVE 21 0 0 0),
           gettimeofday := some { tv_sec := 7800, tv_usec := 1000 },
           send_ok := true }] []) ∧
      motion_since_report (frames_from xwiimote_keys 30
        (loop_state.init { tv_sec := 10000, tv_usec := 0 })
        [{ poll := poll_result.ready,
           dispatch := dispatch_result.event
             (xwii_event.CLASSIC_CONTROLLER_MOVE 2000020 0 0 0),
           gettimeofday := some { tv_sec := 10000, tv_usec := 1000 }, send_ok := true },
         { poll := poll_result.ready,
           dispatch := dispatch_result.event (xwii_event.CLASSIC_CONTROLLER_MOVE 21 0 0 0),
           gettimeofday := some { tv_sec := 7800, tv_usec := 1000 },
           send_ok := true }] []) = (-200000000, 0) ∧
      (s'.mouse_state.rel 0, s'.mouse_state.rel 1) = (-147483648, 0) ∧
      (s'.mouse_state.rel 0, s'.mouse_state.rel 1) ≠
        motion_since_report (frames_from xwiimote_keys 30
          (loop_state.init { tv_sec := 10000, tv_usec := 0 })
          [{ poll := poll_result.ready,
             dispatch := dispatch_result.event
               (xwii_event.CLASSIC_CONTROLLER_MOVE 2000020 0 0 0),
             gettimeofday := some { tv_sec := 10000, tv_usec := 1000 }, send_ok := true },
           { poll := poll_result.ready,
             dispatch := dispatch_result.event (xwii_event.CLASSIC_CONTROLLER_MOVE 21 0 0 0),
             gettimeofday := some { tv_sec := 7800, tv_usec := 1000 },
             send_ok := true }] []) := by
  have hc1 : CORRECT_DEADZONE 2000020 = 2000000 := by decide
  have hc2 : CORRECT_DEADZONE 21 = 1 := by decide
  have hc0 : CORRECT_DEADZONE 0 = 0 := by decide
  obtain ⟨s1, hn1, hf1, hprev1, hlast1, hx1, hy1⟩ :=
    move_step_silent xwiimote_keys 30 (loop_state.init { tv_sec := 10000, tv_usec := 0 })
      { poll := poll_result.ready,
        dispatch := dispatch_result.event (xwii_event.CLASSIC_CONTROLLER_MOVE 2000020 0 0 0),
        gettimeofday := some { tv_sec := 10000, tv_usec := 1000 }, send_ok := true }
      2000020 0 0 0 { tv_sec := 10000, tv_usec := 1000 } (by decide) rfl rfl rfl
      (by rw [delay_val_exact 30 (by decide)]; rfl)
  obtain ⟨s2, hn2, hf2, _, _, hx2, hy2⟩ :=
    move_step_silent xwiimote_keys 30 s1
      { poll := poll_result.ready,
        dispatch := dispatch_result.event (xwii_event.CLASSIC_CONTROLLER_MOVE 21 0 0 0),
        gettimeofday := some { tv_sec := 7800, tv_usec := 1000 }, send_ok := true }
      21 0 0 0 { tv_sec := 7800, tv_usec := 1000 } (by decide) rfl rfl rfl
      (by rw [hlast1, delay_val_exact 30 (by decide)]; rfl)
  have hdm1 : diff_micro_of (timersub { tv_sec := 10000, tv_usec := 1000 }
      (loop_state.init { tv_sec := 10000, tv_usec := 0 }).prev) = 1000 := by
    rw [diff_micro_exact _ _ (by decide) (by decide) (by decide)]
    decide
  have hdm2 : diff_micro_of (timersub { tv_sec := 7800, tv_usec := 1000 }
      { tv_sec := 10000, tv_usec := 1000 }) = INT_MIN := by
    have hsub : timersub { tv_sec := 7800, tv_usec := 1000 }
        { tv_sec := 10000, tv_usec := 1000 } = { tv_sec := -2200, tv_usec := 0 } := by
      decide
    rw [hsub]
    unfold diff_micro_of fadd fmul
    rw [i2d_exact (-2200) (by norm_num) (by norm_num), i2d_exact 0 (by norm_num) (by norm_num)]
    rw [rnd_of_int (((-2200 : Int) : ℚ) * 1000000) (-2200000000) (by norm_num) (by norm_num)
      (by norm_num)]
    rw [rnd_of_int (((-2200000000 : Int) : ℚ) + ((0 : Int) : ℚ)) (-2200000000) (by norm_num)
      (by norm_num) (by norm_num)]
    exact d2i_intCast_out _ (by decide)
  have hacc1 : s1.mouse_state.rel 0 = 2000000000 := by
    rw [hx1, hc1, hc0, hdm1]
    rw [integrate_exact _ _ _ _ (by decide) (by decide) (by decide) (by decide) (by decide)]
    decide
  have hacc1y : s1.mouse_state.rel 1 = 0 := by
    rw [hy1, hc0]
    exact integrate_still 0 _ (by decide)
  have hacc2 : s2.mouse_state.rel 0 = -147483648 := by
    rw [hx2, hprev1, hacc1, hc2, hc0, hdm2]
    rw [integrate_exact _ _ _ _ (by decide) (by decide) (by decide) (by decide) (by decide)]
    decide
  have hacc2y : s2.mouse_state.rel 1 = 0 := by
    rw [hy2, hacc1y, hc0]
    exact integrate_still 0 _ (by decide)
  have hfr : frames_from xwiimote_keys 30 (loop_state.init { tv_sec := 10000, tv_usec := 0 })
      [{ poll := poll_result.ready,
         dispatch := dispatch_result.event
           (xwii_event.CLASSIC_CONTROLLER_MOVE 2000020 0 0 0),
         gettimeofday := some { tv_sec := 10000, tv_usec := 1000 }, send_ok := true },
       { poll := poll_result.ready,
         dispatch := dispatch_result.event (xwii_event.CLASSIC_CONTROLLER_MOVE 21 0 0 0),
         gettimeofday := some { tv_sec := 7800, tv_usec := 1000 },
         send_ok := true }] [] =
      [{ axis0 := 1, axis1 := 0, axis2 := 0, axis3 := 0, elapsed := -2200000000,
         reported := false },
       { axis0 := 2000000, axis1 := 0, axis2 := 0, axis3 := 0, elapsed := 1000,
         reported := false }] := by
    rw [frames_from_loop xwiimote_keys 30 _ s1 _ _ [] hn1,
      frames_from_loop xwiimote_keys 30 s1 s2 _ [] _ hn2, hf1, hf2, hprev1, hc1, hc2, hc0]
    rfl
  refine ⟨s2, by decide, by decide, by decide, ?_, ?_, ?_, ?_, ?_⟩
  · rw [final_state_loop xwiimote_keys 30 _ s1 _ _ hn1,
      final_state_loop xwiimote_keys 30 s1 s2 _ _ hn2]
    rfl
  · rw [hfr]
    simp only [partial_sums_fit, motion_since_report]
    decide
  · rw [hfr]
    simp only [motion_since_report]
    decide
  · rw [hacc2, hacc2y]
  · rw [hacc2, hacc2y, hfr]
    simp only [motion_since_report]
    decide

/-- C2 on a run of one iteration that dispatches a move event 1000
microseconds after startup. -/
theorem C2_motion_integration_exact_witness :
    ∃ s', final_state xwiimote_keys 30 (loop_state.init { tv_sec := 100, tv_usec := 0 })
        [{ poll := poll_result.ready,
           dispatch := dispatch_result.event (xwii_event.CLASSIC_CONTROLLER_MOVE 50 0 0 0),
           gettimeofday := some { tv_sec := 100, tv_usec := 1000 },
           send_ok := true }] = some s' ∧
      clock_fit (frames_from xwiimote_keys 30
        (loop_state.init { tv_sec := 100, tv_usec := 0 })
        [{ poll := poll_result.ready,
           dispatch := dispatch_result.event (xwii_event.CLASSIC_CONTROLLER_MOVE 50 0 0 0),
           gettimeofday := some { tv_sec := 100, tv_usec := 1000 },
           send_ok := true }] []) ∧
      partial_sums_fit (frames_from xwiimote_keys 30
        (loop_state.init { tv_sec := 100, tv_usec := 0 })
        [{ poll := poll_result.ready,
           dispatch := dispatch_result.event (xwii_event.CLASSIC_CONTROLLER_MOVE 50 0 0 0),
           gettimeofday := some { tv_sec := 100, tv_usec := 1000 },
           send_ok := true }] []) ∧
      (s'.mouse_state.rel 0, s'.mouse_state.rel 1) =
        motion_since_report (frames_from xwiimote_keys 30
          (loop_state.init { tv_sec := 100, tv_usec := 0 })
          [{ poll := poll_result.ready,
             dispatch := dispatch_result.event (xwii_event.CLASSIC_CONTROLLER_MOVE 50 0 0 0),
             gettimeofday := some { tv_sec := 100, tv_usec := 1000 },
             send_ok := true }] []) ∧
      motion_since_report (frames_from xwiimote_keys 30
          (loop_state.init { tv_sec := 100, tv_usec := 0 })
          [{ poll := poll_result.ready,
             dispatch := dispatch_result.event (xwii_event.CLASSIC_CONTROLLER_MOVE 50 0 0 0),
             gettimeofday := some { tv_sec := 100, tv_usec := 1000 },
             send_ok := true }] []) = (30000, 0) := by
  obtain ⟨s', hs'⟩ := move_iteration_next
  have hrun := final_state_loop xwiimote_keys 30 _ s' _ [] hs'
  have hfr := frames_from_loop xwiimote_keys 30 _ s' _ [] [] hs'
  have hfit : partial_sums_fit (frames_from xwiimote_keys 30
      (loop_state.init { tv_sec := 100, tv_usec := 0 })
      [{ poll := poll_result.ready,
         dispatch := dispatch_result.event (xwii_event.CLASSIC_CONTROLLER_MOVE 50 0 0 0),
         gettimeofday := some { tv_sec := 100, tv_usec := 1000 },
         send_ok := true }] []) := by
    rw [hfr]
    simp only [frames_from, partial_sums_fit, motion_since_report, frame_of]
    decide
  have hclock : clock_fit (frames_from xwiimote_keys 30
      (loop_state.init { tv_sec := 100, tv_usec := 0 })
      [{ poll := poll_result.ready,
         dispatch := dispatch_result.event (xwii_event.CLASSIC_CONTROLLER_MOVE 50 0 0 0),
         gettimeofday := some { tv_sec := 100, tv_usec := 1000 },
         send_ok := true }] []) := by
    rw [hfr]
    refine Or.inl ?_
    intro f hf
    simp only [frames_from, List.mem_singleton] at hf
    subst hf
    simp only [frame_of]
    decide
  refine ⟨s', by rw [hrun]; rfl, hclock, hfit, ?_, ?_⟩
  swap
  · rw [hfr]
    simp only [frames_from, motion_since_report, frame_of, move_iteration_send_call]
    decide
  exact (C2_motion_integration_exact xwiimote_keys 30 { tv_sec := 100, tv_usec := 0 } _ s'
    (by decide)
    (by
      intro inp hinp t ht
      rw [List.mem_singleton] at hinp
      subst hinp
      cases ht
      decide)
    hclock (by rw [hrun]; rfl) hfit).1

/-- C3: a motion byte, read as a signed 8-bit value, is the delta clamped to
[-128, 127]: the delta itself in range, -128 below, 127 above; and bytes 3 and
4 of every report handed to `send` are the motion bytes of `rel_x` and `rel_y`
computed from the accumulated motion. -/
theorem C3_motion_byte_saturates :
    (∀ d : Int, as_int8 (motion_byte d) =
      if d < -128 then -128 else if d > 127 then 127 else d) ∧
    (∀ (K : xwii_keys) (delay_millis : Int) (s : loop_state) (ret : Option Int)
      (wii : dev_state) (flag : Bool) (inp : iter_input) (r : List Nat),
      (finish_iteration K delay_millis s ret wii flag inp).send_call = some r →
      ∃ now b, inp.gettimeofday = some now ∧
        r = [s.report.d0, s.report.d1, b,
          motion_byte (rel_x_of (integrate (s.mouse_state.rel 0) (wii.rel 0) (wii.rel 2)
            (diff_micro_of (timersub now s.prev)))),
          motion_byte (rel_y_of (integrate (s.mouse_state.rel 1) (wii.rel 1) (wii.rel 3)
            (diff_micro_of (timersub now s.prev))))]) := by
  constructor
  · intro d
    unfold as_int8 motion_byte to_uint8 WITHIN
    split_ifs <;> omega
  · intro K delay_millis s ret wii flag inp r h
    obtain ⟨now, hg, hr⟩ := finish_iteration_send K delay_millis s ret wii flag inp r h
    exact ⟨now, _, hg, hr⟩

/-- C4: from every state with 0/1 stored buttons and the two header bytes in
place (every reachable state is one), whatever the accumulated motion, every
report handed to `send` is 5 bytes,
`0xA1`, `0x02`, then a button byte below 4 whose bit 0 is set iff raw button A
or raw button TR is stored as pressed, whose bit 1 is set iff raw button B is,
and whose other bits are clear, then the two motion bytes. -/
theorem C4_report_header_and_buttons (K : xwii_keys) (delay_millis : Int) (s : loop_state)
    (inp : iter_input) (r : List Nat) (hs : loop_inv s)
    (h : (loop_iteration K delay_millis s inp).send_call = some r) :
    ∃ b x y, r = [0xA1, 0x02, b, x, y] ∧ r.length = 5 ∧ b < 4 ∧
      (b.testBit 0 = true ↔ ((wii_after_dispatch s inp).btn K.XWII_KEY_A ≠ 0 ∨
        (wii_after_dispatch s inp).btn K.XWII_KEY_TR ≠ 0)) ∧
      (b.testBit 1 = true ↔ (wii_after_dispatch s inp).btn K.XWII_KEY_B ≠ 0) ∧
      (∀ i, 2 ≤ i → b.testBit i = false) := by
  obtain ⟨hbtn, hd0, hd1⟩ := hs
  rcases loop_iteration_eq K delay_millis s inp with ⟨ret, he⟩ | ⟨_, ret, flag, he⟩
  · rw [he] at h; cases h
  · rw [he] at h
    obtain ⟨now, _, hr⟩ := finish_iteration_send K delay_millis s ret _ flag inp r h
    have hw := wii_after_dispatch_btn s inp hbtn
    rw [button_byte_copy K _ _ hw, hd0, hd1] at hr
    refine ⟨_, _, _, hr, by rw [hr]; rfl, ?_, ?_, ?_, ?_⟩
    · split_ifs <;> omega
    · split_ifs with h1 h2 h2 <;> simp [h1]
    · split_ifs with h1 h2 h2 <;> simp [h2] <;> decide
    · intro i hi
      apply Nat.testBit_lt_two_pow
      calc _ < 4 := by split_ifs <;> omega
        _ = 2 ^ 2 := rfl
        _ ≤ 2 ^ i := Nat.pow_le_pow_right (by norm_num) hi

/-- C4 on the heartbeat report of the first iteration after startup. -/
theorem C4_report_header_and_buttons_witness :
    loop_inv (loop_state.init { tv_sec := 100, tv_usec := 0 }) ∧
      ∃ b x y, [0xA1, 0x02, 0x00, 0x00, 0x00] = [0xA1, 0x02, b, x, y] ∧
        [0xA1, 0x02, 0x00, 0x00, 0x00].length = 5 ∧ b < 4 ∧
        (b.testBit 0 = true ↔
          ((wii_after_dispatch (loop_state.init { tv_sec := 100, tv_usec := 0 })
              { poll := poll_result.ready, dispatch := dispatch_result.eagain,
                gettimeofday := some { tv_sec := 100, tv_usec := 40000 },
                send_ok := true }).btn xwiimote_keys.XWII_KEY_A ≠ 0 ∨
            (wii_after_dispatch (loop_state.init { tv_sec := 100, tv_usec := 0 })
              { poll := poll_result.ready, dispatch := dispatch_result.eagain,
                gettimeofday := some { tv_sec := 100, tv_usec := 40000 },
                send_ok := true }).btn xwiimote_keys.XWII_KEY_TR ≠ 0)) ∧
        (b.testBit 1 = true ↔
          (wii_after_dispatch (loop_state.init { tv_sec := 100, tv_usec := 0 })
              { poll := poll_result.ready, dispatch := dispatch_result.eagain,
                gettimeofday := some { tv_sec := 100, tv_usec := 40000 },
                send_ok := true }).btn xwiimote_keys.XWII_KEY_B ≠ 0) ∧
        (∀ i, 2 ≤ i → b.testBit i = false) :=
  ⟨⟨fun _ => Or.inl rfl, rfl, rfl⟩,
    C4_report_header_and_buttons xwiimote_keys 30
      (loop_state.init { tv_sec := 100, tv_usec := 0 })
      { poll := poll_result.ready, dispatch := dispatch_result.eagain,
        gettimeofday := some { tv_sec := 100, tv_usec := 40000 }, send_ok := true }
      [0xA1, 0x02, 0x00, 0x00, 0x00] ⟨fun _ => Or.inl rfl, rfl, rfl⟩ heartbeat_send_call⟩

/-- C5 at a failing input: with `delay_millis = 2000` and no event, one
second after the last report (1000000 microseconds, not more than the interval
of 2000000) the iteration hands a report to `send`. -/
theorem C5_timer_fires_within_interval (K : xwii_keys) :
    elapsed_micros { tv_sec := 101, tv_usec := 0 }
        (loop_state.init { tv_sec := 100, tv_usec := 0 }).last_report = 1000000 ∧
      ¬ ((2000 : Int) * 1000 < 1000000) ∧
      (loop_iteration K 2000 (loop_state.init { tv_sec := 100, tv_usec := 0 })
        { poll := poll_result.ready, dispatch := dispatch_result.eagain,
          gettimeofday := some { tv_sec := 101, tv_usec := 0 },
          send_ok := true }).send_call = some [0xA1, 0x02, 0x00, 0x00, 0x00] := by
  refine ⟨by decide, by decide, ?_⟩
  rw [loop_iteration_eagain K 2000 _ _ (by decide) rfl]
  rw [send_call_still K 2000 _ _ _ false _ _ rfl ⟨rfl, rfl⟩ (fun _ => rfl)]
  rw [delay_val_exact 2000 (by decide)]
  rw [button_byte_released K _ _ (fun _ => rfl)]
  rfl

/-- C6 at a failing input: with `delay_millis = 2000`, a repeat event (state 2)
for key A dispatched one second after the last report (not more than the
interval) is followed by a report in the same iteration. -/
theorem C6_repeat_followed_by_report :
    elapsed_micros { tv_sec := 101, tv_usec := 0 }
        (loop_state.init { tv_sec := 100, tv_usec := 0 }).last_report = 1000000 ∧
      ¬ ((2000 : Int) * 1000 < 1000000) ∧
      (loop_iteration xwiimote_keys 2000 (loop_state.init { tv_sec := 100, tv_usec := 0 })
        { poll := poll_result.ready,
          dispatch := dispatch_result.event (xwii_event.KEY 4 2),
          gettimeofday := some { tv_sec := 101, tv_usec := 0 },
          send_ok := true }).send_call = some [0xA1, 0x02, 0x01, 0x00, 0x00] := by
  refine ⟨by decide, by decide, ?_⟩
  have he : handle_event (loop_state.init { tv_sec := 100, tv_usec := 0 }).wii_state
      (xwii_event.KEY 4 2) =
      event_outcome.proceed
        { btn := Function.update dev_state.zero.btn 4 1, rel := dev_state.zero.rel }
        false := rfl
  rw [loop_iteration_event xwiimote_keys 2000 _ _ _ _ _ (by decide) rfl he]
  rw [send_call_still xwiimote_keys 2000 _ _ _ _ _ _ rfl ⟨rfl, rfl⟩ (fun _ => rfl)]
  rw [delay_val_exact 2000 (by decide)]
  rw [button_byte_copy xwiimote_keys _ _ (by
    intro k
    simp only [Function.update_apply, loop_state.init, dev_state.zero]
    split_ifs <;> simp)]
  rfl

/-- C7: scenario 1. From a reachable state with zero accumulated motion and no
button pressed (whatever the stored axes, all zero included), an iteration that
dispatches a classic-controller move with axis0 = 50 and the other components
0, 1000 microseconds after the previous iteration and with the report timer
expired, stores axis0 = 30, accumulates 30000 horizontally and 0 vertically,
scales that to the deltas 1 and 0, and hands the bytes A1 02 00 01 00 to
`send`. -/
theorem C7_scenario_primary_move (K : xwii_keys) (delay_millis : Int) (s : loop_state)
    (now : timeval) (p : poll_result) (ok : Bool)
    (hp : p ≠ poll_result.eintr)
    (hacc : s.mouse_state.rel 0 = 0 ∧ s.mouse_state.rel 1 = 0)
    (hbtn : ∀ k, s.wii_state.btn k = 0)
    (hreach : reachable K delay_millis s)
    (hnow : now.wf) (hprev : s.prev.wf) (hlast : s.last_report.wf)
    (hel : elapsed_micros now s.prev = 1000)
    (hd : in_int delay_millis) (hd0 : 0 ≤ delay_millis)
    (hdue : delay_millis * 1000 < elapsed_micros now s.last_report) :
    (wii_after_dispatch s
        { poll := p,
          dispatch := dispatch_result.event (xwii_event.CLASSIC_CONTROLLER_MOVE 50 0 0 0),
          gettimeofday := some now, send_ok := ok }).rel 0 = 30 ∧
      integrate (s.mouse_state.rel 0) 30 0 (diff_micro_of (timersub now s.prev)) = 30000 ∧
      integrate (s.mouse_state.rel 1) 0 0 (diff_micro_of (timersub now s.prev)) = 0 ∧
      rel_x_of 30000 = 1 ∧ rel_y_of 0 = 0 ∧
      (loop_iteration K delay_millis s
        { poll := p,
          dispatch := dispatch_result.event (xwii_event.CLASSIC_CONTROLLER_MOVE 50 0 0 0),
          gettimeofday := some now, send_ok := ok }).send_call =
        some [0xA1, 0x02, 0x00, 0x01, 0x00] := by
  have hrep := (reachable_inv K delay_millis s hreach).2
  have hdm : diff_micro_of (timersub now s.prev) = 1000 := by
    rw [diff_micro_exact now s.prev hnow hprev (by rw [hel]; decide), hel]
  have hx : integrate (s.mouse_state.rel 0) 30 0 1000 = 30000 := by
    rw [hacc.1, integrate_exact 0 30 0 1000 (by decide) (by decide) (by decide) (by decide)
      (by decide)]
    rfl
  have hy : integrate (s.mouse_state.rel 1) 0 0 1000 = 0 := by
    rw [hacc.2]; exact integrate_still 0 1000 (by decide)
  have hc50 : CORRECT_DEADZONE 50 = 30 := by decide
  have hc0 : CORRECT_DEADZONE 0 = 0 := by decide
  refine ⟨?_, ?_, ?_, rel_x_of_30000, rel_y_of_zero, ?_⟩
  · simp [wii_after_dispatch, handle_event, Function.update_apply, hc50]
  · rw [hdm]; exact hx
  · rw [hdm]; exact hy
  · have he : handle_event s.wii_state (xwii_event.CLASSIC_CONTROLLER_MOVE 50 0 0 0) =
        event_outcome.proceed
          { btn := s.wii_state.btn,
            rel := Function.update (Function.update (Function.update (Function.update
                s.wii_state.rel 0 30) 1 0) 2 0) 3 0 } false := by
      simp only [handle_event, hc50, hc0]
    rw [loop_iteration_event K delay_millis s _ _ _ false hp rfl he]
    rw [finish_iteration_send_call K delay_millis s _ _ false _ now rfl]
    rw [if_pos (Or.inl (timer_fires_of_exceeds now s.last_report delay_millis hnow hlast hd
      hd0 hdue))]
    have hb : ∀ rel : Nat → Int, button_byte (copy_buttons K s.mouse_state.btn
        { btn := s.wii_state.btn, rel := rel }) = 0 :=
      fun _ => button_byte_released K _ _ hbtn
    rw [hb]
    simp only [Function.update_apply, hc50, hc0, hdm]
    simp [hx, hy, rel_x_of_30000, rel_y_of_zero, motion_byte_zero, motion_byte_one, hrep.1,
      hrep.2]

/-- C7 at startup time 10 s with a zero report interval. -/
theorem C7_scenario_primary_move_witness :
    elapsed_micros { tv_sec := 10, tv_usec := 1000 }
        (loop_state.init { tv_sec := 10, tv_usec := 0 }).prev = 1000 ∧
      (0 : Int) * 1000 < elapsed_micros { tv_sec := 10, tv_usec := 1000 }
        (loop_state.init { tv_sec := 10, tv_usec := 0 }).last_report ∧
      (loop_iteration xwiimote_keys 0 (loop_state.init { tv_sec := 10, tv_usec := 0 })
        { poll := poll_result.ready,
          dispatch := dispatch_result.event (xwii_event.CLASSIC_CONTROLLER_MOVE 50 0 0 0),
          gettimeofday := some { tv_sec := 10, tv_usec := 1000 },
          send_ok := true }).send_call = some [0xA1, 0x02, 0x00, 0x01, 0x00] :=
  ⟨by decide, by decide,
    (C7_scenario_primary_move xwiimote_keys 0 (loop_state.init { tv_sec := 10, tv_usec := 0 })
      { tv_sec := 10, tv_usec := 1000 } poll_result.ready true (by decide) ⟨rfl, rfl⟩
      (fun _ => rfl) (reachable.start _) (by decide) (by decide) (by decide) (by decide)
      (by decide) (by decide) (by decide)).2.2.2.2.2⟩

/-- C8: in a run from startup in which every dispatch finds no event, every
iteration that reads a time more than the configured interval after the last
report hands a report to `send`, and every report of the run is
A1 02 00 00 00: zero horizontal and vertical motion, and the button byte that
the report structure already held from the previous report. -/
theorem C8_heartbeat (K : xwii_keys) (delay_millis : Int) (now0 : timeval)
    (inputs : List iter_input) (hd : in_int delay_millis) (hd0 : 0 ≤ delay_millis)
    (hwf0 : now0.wf)
    (hwf : ∀ inp ∈ inputs, ∀ t, inp.gettimeofday = some t → t.wf)
    (hq : ∀ inp ∈ inputs, inp.dispatch = dispatch_result.eagain) :
    (∀ p ∈ iterations K delay_millis (loop_state.init now0) inputs, ∀ now,
        p.2.poll ≠ poll_result.eintr → p.2.gettimeofday = some now →
        delay_millis * 1000 < elapsed_micros now p.1.last_report →
        (loop_iteration K delay_millis p.1 p.2).send_call =
          some [0xA1, 0x02, 0x00, 0x00, 0x00]) ∧
    (∀ p ∈ iterations K delay_millis (loop_state.init now0) inputs, ∀ r,
        (loop_iteration K delay_millis p.1 p.2).send_call = some r →
        r = [0xA1, 0x02, p.1.report.d2, 0x00, 0x00]) ∧
    (∀ r ∈ (run_loop K delay_millis (loop_state.init now0) inputs).sends,
        r = [0xA1, 0x02, 0x00, 0x00, 0x00]) := by
  have hinit := quiet_init now0 hwf0
  refine ⟨?_, ?_, run_loop_quiet K delay_millis inputs _ hinit hwf hq⟩
  · intro p hp now hpoll hg hex
    obtain ⟨hs, hmem⟩ := iterations_quiet K delay_millis inputs _ hinit hwf hq p hp
    rw [quiet_send_call K delay_millis p.1 p.2 hs hpoll (hq _ hmem) now hg]
    rw [if_pos (timer_fires_of_exceeds now p.1.last_report delay_millis (hwf _ hmem now hg)
      hs.2.2.2.2.2 hd hd0 hex)]
  · intro p hp r hr
    obtain ⟨hs, hmem⟩ := iterations_quiet K delay_millis inputs _ hinit hwf hq p hp
    rw [quiet_send_some K delay_millis p.1 p.2 hs (hq _ hmem) r hr, hs.2.2.2.2.1]
    rfl

/-- C8 on a run of one iteration, 40 ms after startup with a 30 ms interval. -/
theorem C8_heartbeat_witness :
    in_int 30 ∧ (0 : Int) ≤ 30 ∧ timeval.wf { tv_sec := 100, tv_usec := 0 } ∧
      (∀ r ∈ (run_loop xwiimote_keys 30 (loop_state.init { tv_sec := 100, tv_usec := 0 })
          [{ poll := poll_result.ready, dispatch := dispatch_result.eagain,
             gettimeofday := some { tv_sec := 100, tv_usec := 40000 },
             send_ok := true }]).sends,
        r = [0xA1, 0x02, 0x00, 0x00, 0x00]) :=
  ⟨by decide, by decide, by decide,
    (C8_heartbeat xwiimote_keys 30 { tv_sec := 100, tv_usec := 0 }
      [{ poll := poll_result.ready, dispatch := dispatch_result.eagain,
         gettimeofday := some { tv_sec := 100, tv_usec := 40000 }, send_ok := true }]
      (by decide) (by decide) (by decide)
      (by
        intro inp hinp t ht
        rw [List.mem_singleton] at hinp
        subst hinp
        cases ht
        decide)
      (by
        intro inp hinp
        rw [List.mem_singleton] at hinp
        subst hinp
        rfl)).2.2⟩

/-- C9 at a failing input: when `xwii_iface_open` returns `-19` and every other
setup call succeeds, `open_iface` returns the positive `0x25`, the setup part of
`main` reaches the event loop, and `main` then sends a report for a key press
and returns 0 when the device is gone; no environment makes the setup part
return the interface-open code `0x25`. -/
theorem C9_iface_open_failure_enters_loop :
    open_iface (-19) = 0x25 ∧
    main_setup
        { argc := 2, atoi_argv2 := 0, socket_ok := true, connect_ok := true,
          monitor_new_ok := true, monitor_poll_ok := true, iface_new_res := 0,
          iface_open_res := -19, iface_watch_res := 0,
          gettimeofday := some { tv_sec := 100, tv_usec := 0 } } =
      setup_result.enter_loop 30 (loop_state.init { tv_sec := 100, tv_usec := 0 }) ∧
    main xwiimote_keys
        { argc := 2, atoi_argv2 := 0, socket_ok := true, connect_ok := true,
          monitor_new_ok := true, monitor_poll_ok := true, iface_new_res := 0,
          iface_open_res := -19, iface_watch_res := 0,
          gettimeofday := some { tv_sec := 100, tv_usec := 0 } }
        [{ poll := poll_result.ready, dispatch := dispatch_result.event (xwii_event.KEY 4 1),
           gettimeofday := some { tv_sec := 100, tv_usec := 5000 }, send_ok := true },
         { poll := poll_result.ready, dispatch := dispatch_result.event xwii_event.GONE,
           gettimeofday := none, send_ok := true }] =
      { sends := [[0xA1, 0x02, 0x01, 0x00, 0x00]], exit := some (some 0) } ∧
    ∀ env : setup_env, main_setup env ≠ setup_result.exit 0x25 := by
  have hsetup : main_setup
      { argc := 2, atoi_argv2 := 0, socket_ok := true, connect_ok := true,
        monitor_new_ok := true, monitor_poll_ok := true, iface_new_res := 0,
        iface_open_res := -19, iface_watch_res := 0,
        gettimeofday := some { tv_sec := 100, tv_usec := 0 } } =
      setup_result.enter_loop 30 (loop_state.init { tv_sec := 100, tv_usec := 0 }) := rfl
  refine ⟨by decide, hsetup, ?_, ?_⟩
  · unfold main
    rw [hsetup]
    exact (press_then_gone poll_result.ready (by decide)).2.2
  · intro env
    unfold main_setup open_iface open_wiimote
    split_ifs <;> first
      | (intro h; injection h with h; revert h; decide)
      | (cases env.gettimeofday <;> intro h <;> first
          | (injection h with h; revert h; decide)
          | cases h)

/-- C10 at a failing input: an iteration whose `poll` fails with an `errno`
other than `EINTR` still dispatches the pending key event, hands a report to
`send` and goes back to the top of the loop; when the device is gone in the
next iteration, `main` returns 0. An interrupted `poll` does leave the loop
at once with return value 0. -/
theorem C10_poll_failure_goes_on :
    (∀ (K : xwii_keys) (delay_millis : Int) (s : loop_state) (inp : iter_input),
      inp.poll = poll_result.eintr →
      loop_iteration K delay_millis s inp =
        { send_call := none, next := control.leave (some 0) }) ∧
    (loop_iteration xwiimote_keys 30 (loop_state.init { tv_sec := 100, tv_usec := 0 })
        { poll := poll_result.failed,
          dispatch := dispatch_result.event (xwii_event.KEY 4 1),
          gettimeofday := some { tv_sec := 100, tv_usec := 5000 },
          send_ok := true }).send_call = some [0xA1, 0x02, 0x01, 0x00, 0x00] ∧
    (∃ s', (loop_iteration xwiimote_keys 30 (loop_state.init { tv_sec := 100, tv_usec := 0 })
        { poll := poll_result.failed,
          dispatch := dispatch_result.event (xwii_event.KEY 4 1),
          gettimeofday := some { tv_sec := 100, tv_usec := 5000 },
          send_ok := true }).next = control.loop s') ∧
    run_loop xwiimote_keys 30 (loop_state.init { tv_sec := 100, tv_usec := 0 })
        [{ poll := poll_result.failed,
           dispatch := dispatch_result.event (xwii_event.KEY 4 1),
           gettimeofday := some { tv_sec := 100, tv_usec := 5000 },
           send_ok := true },
         { poll := poll_result.ready,
           dispatch := dispatch_result.event xwii_event.GONE,
           gettimeofday := none, send_ok := true }] =
      { sends := [[0xA1, 0x02, 0x01, 0x00, 0x00]], exit := some (some 0) } := by
  refine ⟨?_, press_then_gone poll_result.failed (by decide)⟩
  intro K delay_millis s inp hp
  unfold loop_iteration
  simp [hp]

end Wiimote
